import Mathlib

/-!
Verification of the binary protocol layer of the mercurial stable-swap
program: the instruction codec (`SwapInstruction.pack` / `SwapInstruction.unpack`),
the versioned pool-record codec (`SwapVersion.pack` / `SwapVersion.unpack` over
the `SwapV2` fixed layout), and the instruction builders.

Byte buffers are `List Nat` (each entry a byte value `< 256`); machine integers
are `Nat` with explicit reduction modulo `2 ^ w` where the code truncates.
Rust functions that can panic (slice indexing, `split_at`, `arrayref` macros,
`copy_from_slice`) are embedded as `Option`-valued functions where `none`
models the panic; fallible functions return `Except ProgramError`.
-/

/-- Error type of the Solana runtime (`solana_program::program_error::ProgramError`),
modelled by its constructors; only the payload-free variants used by this crate plus
`Custom` are relevant, and `Custom` carries the `u32` error code. -/
inductive ProgramError where
  | Custom (code : Nat)
  | InvalidArgument
  | InvalidInstructionData
  | InvalidAccountData
  | AccountDataTooSmall
  | InsufficientFunds
  | IncorrectProgramId
  | MissingRequiredSignature
  | AccountAlreadyInitialized
  | UninitializedAccount
  | NotEnoughAccountKeys
  | AccountBorrowFailed
  | MaxSeedLengthExceeded
  | InvalidSeeds
deriving DecidableEq, Repr

/-- The crate error enum of src/src/error.rs (30 variants, discriminants 0..29). -/
inductive SwapError where
  | InvalidInstruction
  | NotRentExempt
  | InvalidProgramAddress
  | IncorrectTokenProgramId
  | ExpectedAccount
  | ExpectedMint
  | InvalidOwner
  | InvalidTokenMatch
  | InvalidConversion
  | InvalidInitialDeposit
  | InvalidCalculation
  | ExceededSlippage
  | InvalidExchangeAccount
  | InvalidMint
  | SwapAlreadyInitialized
  | TokenAccountFrozen
  | DelegatedTokenAccount
  | MintFreezeAuthoritySet
  | CloseAuthoritySet
  | RepeatedMint
  | TokenAccountNotEmpty
  | PoolTokenSupplyNotEmpty
  | InvalidTokenAccount
  | InvalidAdminMintDecimals
  | SwapDisabled
  | AddLiquidityDisabled
  | NoAdminTokens
  | InvalidAdminDelegate
  | AdminTokenAccountFrozen
  | PoolTokenDecimalsInvalid
deriving DecidableEq, Repr

/-- Discriminant of a `SwapError` variant (the `e as u32` cast of src/src/error.rs). -/
def SwapError.code : SwapError → Nat
  | .InvalidInstruction => 0
  | .NotRentExempt => 1
  | .InvalidProgramAddress => 2
  | .IncorrectTokenProgramId => 3
  | .ExpectedAccount => 4
  | .ExpectedMint => 5
  | .InvalidOwner => 6
  | .InvalidTokenMatch => 7
  | .InvalidConversion => 8
  | .InvalidInitialDeposit => 9
  | .InvalidCalculation => 10
  | .ExceededSlippage => 11
  | .InvalidExchangeAccount => 12
  | .InvalidMint => 13
  | .SwapAlreadyInitialized => 14
  | .TokenAccountFrozen => 15
  | .DelegatedTokenAccount => 16
  | .MintFreezeAuthoritySet => 17
  | .CloseAuthoritySet => 18
  | .RepeatedMint => 19
  | .TokenAccountNotEmpty => 20
  | .PoolTokenSupplyNotEmpty => 21
  | .InvalidTokenAccount => 22
  | .InvalidAdminMintDecimals => 23
  | .SwapDisabled => 24
  | .AddLiquidityDisabled => 25
  | .NoAdminTokens => 26
  | .InvalidAdminDelegate => 27
  | .AdminTokenAccountFrozen => 28
  | .PoolTokenDecimalsInvalid => 29

/-- The `From<SwapError> for ProgramError` conversion of src/src/error.rs:
`ProgramError::Custom(e as u32)`. -/
def SwapError.toProgramError (e : SwapError) : ProgramError :=
  ProgramError.Custom e.code

/-- A Solana public key: 32 raw bytes. -/
abbrev Pubkey := List Nat

/-- The `AdminSettings` flags of src/state.rs. -/
structure AdminSettings where
  swap_enabled : Bool
  add_liquidity_enabled : Bool
deriving DecidableEq, Repr

/-- Little-endian byte string of length `k` for `x` (the semantics of Rust
`u32::to_le_bytes` / `u64::to_le_bytes` with `k = 4` / `k = 8`; values are
implicitly reduced modulo `256 ^ k`, which is exactly the machine truncation
performed by casts such as `len as u32`). -/
def bytesLE : Nat → Nat → List Nat
  | 0, _ => []
  | k + 1, x => x % 256 :: bytesLE k (x / 256)

/-- Little-endian value of a byte string (the semantics of Rust
`u32::from_le_bytes` / `u64::from_le_bytes`). -/
def leNat : List Nat → Nat
  | [] => 0
  | b :: rest => b + 256 * leNat rest

/-- The Rust `bool as u8` cast. -/
def boolToU8 (b : Bool) : Nat := if b then 1 else 0

/-- The helper `u8_to_bool` of src/src/utils.rs: 0 and 1 decode, everything
else is `ProgramError::InvalidAccountData`. -/
def u8_to_bool (num : Nat) : Except ProgramError Bool :=
  match num with
  | 0 => .ok false
  | 1 => .ok true
  | _ => .error ProgramError.InvalidAccountData

/-- The command enum `SwapInstruction` of src/instruction.rs. -/
inductive SwapInstruction where
  | Initialize (nonce : Nat) (amplification_coefficient : Nat) (fee_numerator : Nat)
      (admin_fee_numerator : Nat) (n_coins : Nat) (admin_settings : AdminSettings)
  | AddLiquidity (deposit_amounts : List Nat) (min_mint_amount : Nat)
  | RemoveLiquidity (unmint_amount : Nat) (minimum_amounts : List Nat)
  | RemoveLiquidityOneToken (unmint_amount : Nat) (minimum_out_amount : Nat)
  | Exchange (in_amount : Nat) (minimum_out_amount : Nat)
  | GetVirtualPrice
deriving DecidableEq, Repr

/-- Machine-width well-formedness of a command: every field fits the Rust
integer type it is declared with (`u8`, `u64`). -/
def SwapInstruction.wf : SwapInstruction → Prop
  | .Initialize nonce amplification_coefficient fee_numerator admin_fee_numerator n_coins _ =>
      nonce < 2 ^ 8 ∧ amplification_coefficient < 2 ^ 64 ∧ fee_numerator < 2 ^ 64 ∧
        admin_fee_numerator < 2 ^ 64 ∧ n_coins < 2 ^ 8
  | .AddLiquidity deposit_amounts min_mint_amount =>
      (∀ x ∈ deposit_amounts, x < 2 ^ 64) ∧ min_mint_amount < 2 ^ 64
  | .RemoveLiquidity unmint_amount minimum_amounts =>
      unmint_amount < 2 ^ 64 ∧ ∀ x ∈ minimum_amounts, x < 2 ^ 64
  | .RemoveLiquidityOneToken unmint_amount minimum_out_amount =>
      unmint_amount < 2 ^ 64 ∧ minimum_out_amount < 2 ^ 64
  | .Exchange in_amount minimum_out_amount =>
      in_amount < 2 ^ 64 ∧ minimum_out_amount < 2 ^ 64
  | .GetVirtualPrice => True

instance : DecidablePred SwapInstruction.wf := by
  intro c
  cases c <;> simp only [SwapInstruction.wf] <;> infer_instance

/-- Length of the variable-length vector of a command (0 for the four
fixed-width variants). -/
def SwapInstruction.vecLen : SwapInstruction → Nat
  | .AddLiquidity deposit_amounts _ => deposit_amounts.length
  | .RemoveLiquidity _ minimum_amounts => minimum_amounts.length
  | _ => 0

/-- Number of bytes the decoder requires to succeed on the encoding of a
command: the discriminant byte plus the fixed-width fields, and for the two
vector variants the count field plus as many elements as the count that was
written (the vector length truncated by the `len as u32` cast of the
encoder). -/
def SwapInstruction.requiredLen : SwapInstruction → Nat
  | .Initialize _ _ _ _ _ _ => 29
  | .AddLiquidity deposit_amounts _ => 13 + 8 * (deposit_amounts.length % 2 ^ 32)
  | .RemoveLiquidity _ minimum_amounts => 13 + 8 * (minimum_amounts.length % 2 ^ 32)
  | .RemoveLiquidityOneToken _ _ => 17
  | .Exchange _ _ => 17
  | .GetVirtualPrice => 1

/-- The reader `SwapInstruction::unpack_u8` of src/instruction.rs:
`split_first` on the slice, `SwapError::InvalidInstruction` when empty. -/
def SwapInstruction.unpack_u8 (input : List Nat) : Except ProgramError (Nat × List Nat) :=
  match input with
  | [] => .error (SwapError.toProgramError .InvalidInstruction)
  | amount :: rest => .ok (amount, rest)

/-- The reader `SwapInstruction::unpack_u32` of src/instruction.rs: the first
four bytes little-endian when at least four are present, otherwise
`SwapError::InvalidInstruction`. -/
def SwapInstruction.unpack_u32 (input : List Nat) : Except ProgramError (Nat × List Nat) :=
  if 4 ≤ input.length then .ok (leNat (input.take 4), input.drop 4)
  else .error (SwapError.toProgramError .InvalidInstruction)

/-- The reader `SwapInstruction::unpack_u64` of src/instruction.rs: the first
eight bytes little-endian when at least eight are present, otherwise
`SwapError::InvalidInstruction`. -/
def SwapInstruction.unpack_u64 (input : List Nat) : Except ProgramError (Nat × List Nat) :=
  if 8 ≤ input.length then .ok (leNat (input.take 8), input.drop 8)
  else .error (SwapError.toProgramError .InvalidInstruction)

/-- The element loop of the `AddLiquidity` / `RemoveLiquidity` decoding arms
of src/instruction.rs (`for i in 0..length { let (_, r) = rest.split_at(i * 8);
let (x, _) = unpack_u64(r)?; push x }`): reads `k` further elements starting at
element index `i` of `rest`.  `none` models the `split_at` panic when
`rest.len() < i * 8`. -/
def SwapInstruction.readLoop (rest : List Nat) : Nat → Nat → Option (Except ProgramError (List Nat))
  | _, 0 => some (.ok [])
  | i, k + 1 =>
    if rest.length < i * 8 then none
    else
      match SwapInstruction.unpack_u64 (rest.drop (i * 8)) with
      | .error e => some (.error e)
      | .ok (x, _) =>
        match SwapInstruction.readLoop rest (i + 1) k with
        | none => none
        | some (.error e) => some (.error e)
        | some (.ok xs) => some (.ok (x :: xs))

/-- The decoder `SwapInstruction::unpack` of src/instruction.rs. `none` models
a panic (possible only through `split_at` in the vector arms), `some (.error e)`
an `Err(e)` return, and `some (.ok c)` a successful decode. -/
def SwapInstruction.unpack (input : List Nat) : Option (Except ProgramError SwapInstruction) :=
  match SwapInstruction.unpack_u8 input with
  | .error e => some (.error e)
  | .ok (tag, rest) =>
    match tag with
    | 0 =>
      match SwapInstruction.unpack_u8 rest with
      | .error e => some (.error e)
      | .ok (nonce, rest) =>
        match SwapInstruction.unpack_u8 rest with
        | .error e => some (.error e)
        | .ok (n_coins, rest) =>
          match SwapInstruction.unpack_u64 rest with
          | .error e => some (.error e)
          | .ok (amplification_coefficient, rest) =>
            match SwapInstruction.unpack_u64 rest with
            | .error e => some (.error e)
            | .ok (fee_numerator, rest) =>
              match SwapInstruction.unpack_u64 rest with
              | .error e => some (.error e)
              | .ok (admin_fee_numerator, rest) =>
                match SwapInstruction.unpack_u8 rest with
                | .error e => some (.error e)
                | .ok (swap_enabled, rest) =>
                  match SwapInstruction.unpack_u8 rest with
                  | .error e => some (.error e)
                  | .ok (add_liquidity_enabled, _) =>
                    match u8_to_bool swap_enabled with
                    | .error e => some (.error e)
                    | .ok se =>
                      match u8_to_bool add_liquidity_enabled with
                      | .error e => some (.error e)
                      | .ok ale =>
                        some (.ok (.Initialize nonce amplification_coefficient
                          fee_numerator admin_fee_numerator n_coins ⟨se, ale⟩))
    | 1 =>
      match SwapInstruction.unpack_u32 rest with
      | .error e => some (.error e)
      | .ok (length, rest) =>
        match SwapInstruction.readLoop rest 0 length with
        | none => none
        | some (.error e) => some (.error e)
        | some (.ok deposit_amounts) =>
          if rest.length < length * 8 then none
          else
            match SwapInstruction.unpack_u64 (rest.drop (length * 8)) with
            | .error e => some (.error e)
            | .ok (min_mint_amount, _) =>
              some (.ok (.AddLiquidity deposit_amounts min_mint_amount))
    | 2 =>
      match SwapInstruction.unpack_u64 rest with
      | .error e => some (.error e)
      | .ok (unmint_amount, rest) =>
        match SwapInstruction.unpack_u32 rest with
        | .error e => some (.error e)
        | .ok (length, rest) =>
          match SwapInstruction.readLoop rest 0 length with
          | none => none
          | some (.error e) => some (.error e)
          | some (.ok minimum_amounts) =>
            some (.ok (.RemoveLiquidity unmint_amount minimum_amounts))
    | 3 =>
      match SwapInstruction.unpack_u64 rest with
      | .error e => some (.error e)
      | .ok (unmint_amount, rest) =>
        match SwapInstruction.unpack_u64 rest with
        | .error e => some (.error e)
        | .ok (minimum_out_amount, _) =>
          some (.ok (.RemoveLiquidityOneToken unmint_amount minimum_out_amount))
    | 4 =>
      match SwapInstruction.unpack_u64 rest with
      | .error e => some (.error e)
      | .ok (in_amount, rest) =>
        match SwapInstruction.unpack_u64 rest with
        | .error e => some (.error e)
        | .ok (minimum_out_amount, _) =>
          some (.ok (.Exchange in_amount minimum_out_amount))
    | 5 => some (.ok .GetVirtualPrice)
    | _ => some (.error ProgramError.InvalidAccountData)

/-- The encoder `SwapInstruction::pack` of src/instruction.rs: discriminant
byte, then the fields in source order; vectors are a `u32` little-endian count
followed by the `u64` little-endian elements. -/
def SwapInstruction.pack : SwapInstruction → List Nat
  | .Initialize nonce amplification_coefficient fee_numerator admin_fee_numerator n_coins
      admin_settings =>
    0 :: nonce :: n_coins ::
      (bytesLE 8 amplification_coefficient ++ bytesLE 8 fee_numerator ++
        bytesLE 8 admin_fee_numerator ++
        [boolToU8 admin_settings.swap_enabled, boolToU8 admin_settings.add_liquidity_enabled])
  | .AddLiquidity deposit_amounts min_mint_amount =>
    1 :: (bytesLE 4 deposit_amounts.length ++ deposit_amounts.flatMap (bytesLE 8) ++
      bytesLE 8 min_mint_amount)
  | .RemoveLiquidity unmint_amount minimum_amounts =>
    2 :: (bytesLE 8 unmint_amount ++ bytesLE 4 minimum_amounts.length ++
      minimum_amounts.flatMap (bytesLE 8))
  | .RemoveLiquidityOneToken unmint_amount minimum_out_amount =>
    3 :: (bytesLE 8 unmint_amount ++ bytesLE 8 minimum_out_amount)
  | .Exchange in_amount minimum_out_amount =>
    4 :: (bytesLE 8 in_amount ++ bytesLE 8 minimum_out_amount)
  | .GetVirtualPrice => [5]

/-- Maximum number of coins in a pool (`PoolParameter::MAX_N_COINS` of src/src/lib.rs). -/
def PoolParameter.MAX_N_COINS : Nat := 4

/-- The pool record `SwapV2` of src/state.rs. -/
structure SwapV2 where
  is_initialized : Bool
  nonce : Nat
  amplification_coefficient : Nat
  fee_numerator : Nat
  admin_fee_numerator : Nat
  precision_factor : Nat
  precision_multipliers : List Nat
  token_account_addresses : List Pubkey
  pool_mint_address : Pubkey
  admin_token_mint_address : Pubkey
  admin_settings : AdminSettings
deriving DecidableEq, Repr

/-- The versioned pool record `SwapVersion` of src/state.rs. -/
inductive SwapVersion where
  | SwapV2 (v : SwapV2)
deriving DecidableEq, Repr

/-- The constant `SwapV2::LEN` of src/state.rs:
`1 + 1 + 8 + 8 + 8 + 4 + 8 + 4 * 8 + 4 * 32 + 32 + 32 + 2 = 264`. -/
def SwapV2.LEN : Nat :=
  1 + 1 + 8 + 8 + 8 + 4 + 8 + PoolParameter.MAX_N_COINS * 8 + PoolParameter.MAX_N_COINS * 32 +
    32 + 32 + 2

/-- The constant `SwapVersion::LATEST_LEN` of src/state.rs: `1 + SwapV2::LEN = 265`. -/
def SwapVersion.LATEST_LEN : Nat := 1 + SwapV2.LEN

/-- Machine-width well-formedness of a pool record: every field fits its Rust
type (`u8` / `u64`), the coin vectors hold `u64` values and 32-byte addresses,
and the mint addresses are 32 bytes. -/
def SwapV2.wf (v : SwapV2) : Prop :=
  v.nonce < 2 ^ 8 ∧ v.amplification_coefficient < 2 ^ 64 ∧ v.fee_numerator < 2 ^ 64 ∧
    v.admin_fee_numerator < 2 ^ 64 ∧ v.precision_factor < 2 ^ 64 ∧
    (∀ x ∈ v.precision_multipliers, x < 2 ^ 64) ∧
    (∀ a ∈ v.token_account_addresses, a.length = 32) ∧
    v.pool_mint_address.length = 32 ∧ v.admin_token_mint_address.length = 32

instance : DecidablePred SwapV2.wf := by
  intro v
  simp only [SwapV2.wf]
  infer_instance

/-- The slot-writing loops of `SwapV2::pack_into_slice` (src/state.rs): write
`slots` one after the other at width-`w` offsets from the start of the region
`old`, keeping the bytes of `old` past the written slots.  `none` models the
`array_mut_ref!` panic when a slot would not fit in the region and the
`copy_from_slice` panic when a slot is not exactly `w` bytes. -/
def writeSlots (w : Nat) : List (List Nat) → List Nat → Option (List Nat)
  | [], old => some old
  | s :: rest, old =>
    if s.length = w ∧ w ≤ old.length then
      match writeSlots w rest (old.drop w) with
      | none => none
      | some tail => some (s ++ tail)
    else none

/-- The slot-reading loops of `SwapV2::unpack_from_slice` (src/state.rs): read
`k` width-`w` slots of the region starting at slot index `i`.  `none` models
the `array_ref!` panic when a slot lies beyond the region. -/
def readSlots (w : Nat) (region : List Nat) : Nat → Nat → Option (List (List Nat))
  | _, 0 => some []
  | i, k + 1 =>
    if i * w + w ≤ region.length then
      match readSlots w region (i + 1) k with
      | none => none
      | some rest => some ((region.drop (i * w)).take w :: rest)
    else none

/-- The encoder `SwapV2::pack_into_slice` of src/state.rs, as the buffer it
leaves behind: the twelve `mut_array_refs!` regions of the first `LEN` bytes
of `dst` are overwritten in order with the fixed-width fields; within the
multiplier and token-address regions only the first `precision_multipliers.len()`
and `token_account_addresses.len()` slots are written and the rest of each
region keeps the bytes of `dst`.  `none` models a panic: `array_mut_ref!` on a
buffer shorter than `LEN`, a slot loop running past its region, or
`copy_from_slice` on an address that is not 32 bytes. -/
def SwapV2.pack_into_slice (v : SwapV2) (dst : List Nat) : Option (List Nat) :=
  if dst.length < SwapV2.LEN then none
  else
    match writeSlots 8 (v.precision_multipliers.map (bytesLE 8)) ((dst.drop 38).take 32),
        writeSlots 32 v.token_account_addresses ((dst.drop 70).take 128) with
    | some multipliers_dst, some token_account_addresses_dst =>
      if v.pool_mint_address.length = 32 then
        if v.admin_token_mint_address.length = 32 then
          some ([boolToU8 v.is_initialized, v.nonce] ++
            bytesLE 8 v.amplification_coefficient ++
            bytesLE 8 v.fee_numerator ++
            bytesLE 8 v.admin_fee_numerator ++
            bytesLE 4 v.token_account_addresses.length ++
            bytesLE 8 v.precision_factor ++
            multipliers_dst ++
            token_account_addresses_dst ++
            v.pool_mint_address ++
            v.admin_token_mint_address ++
            [boolToU8 v.admin_settings.swap_enabled,
              boolToU8 v.admin_settings.add_liquidity_enabled] ++
            dst.drop SwapV2.LEN)
        else none
      else none
    | _, _ => none

/-- The decoder `SwapV2::unpack_from_slice` of src/state.rs: split the first
`LEN` bytes into the twelve `array_refs!` regions, validate the
`is_initialized` byte, read the first `tokens_len` slots of the multiplier and
token-address regions, and validate the two admin flag bytes.  `none` models a
panic: `array_ref!` on a buffer shorter than `LEN` or a slot read past its
region (a stored coin count above 4). -/
def SwapV2.unpack_from_slice (src : List Nat) : Option (Except ProgramError SwapV2) :=
  if src.length < SwapV2.LEN then none
  else
    let is_init_byte := src.getD 0 0
    if is_init_byte = 0 ∨ is_init_byte = 1 then
      let tokens_len := leNat ((src.drop 26).take 4)
      match readSlots 8 ((src.drop 38).take 32) 0 tokens_len with
      | none => none
      | some multiplier_slots =>
        match readSlots 32 ((src.drop 70).take 128) 0 tokens_len with
        | none => none
        | some token_slots =>
          let a0 := src.getD 262 0
          let a1 := src.getD 263 0
          if a0 = 0 ∨ a0 = 1 then
            if a1 = 0 ∨ a1 = 1 then
              some (.ok
                { is_initialized := is_init_byte == 1
                  nonce := src.getD 1 0
                  amplification_coefficient := leNat ((src.drop 2).take 8)
                  fee_numerator := leNat ((src.drop 10).take 8)
                  admin_fee_numerator := leNat ((src.drop 18).take 8)
                  precision_factor := leNat ((src.drop 30).take 8)
                  precision_multipliers := multiplier_slots.map leNat
                  token_account_addresses := token_slots
                  pool_mint_address := (src.drop 198).take 32
                  admin_token_mint_address := (src.drop 230).take 32
                  admin_settings := ⟨a0 == 1, a1 == 1⟩ })
            else some (.error ProgramError.InvalidAccountData)
          else some (.error ProgramError.InvalidAccountData)
    else some (.error ProgramError.InvalidAccountData)

/-- The provided method `Pack::pack` of `solana_program::program_pack`,
instantiated at `SwapV2` (the trait implementation is in src/state.rs, the
default body in the solana_program dependency): reject a destination whose
length is not exactly `LEN` with `ProgramError::InvalidAccountData`, otherwise
run `pack_into_slice`.  The returned list is the buffer left behind. -/
def SwapV2.pack (v : SwapV2) (dst : List Nat) : Option (Except ProgramError Unit × List Nat) :=
  if dst.length ≠ SwapV2.LEN then some (.error ProgramError.InvalidAccountData, dst)
  else
    match SwapV2.pack_into_slice v dst with
    | none => none
    | some out => some (.ok (), out)

/-- The provided method `Pack::unpack_unchecked` of
`solana_program::program_pack`, instantiated at `SwapV2`: reject an input whose
length is not exactly `LEN` with `ProgramError::InvalidAccountData`, otherwise
run `unpack_from_slice`. -/
def SwapV2.unpack_unchecked (input : List Nat) : Option (Except ProgramError SwapV2) :=
  if input.length ≠ SwapV2.LEN then some (.error ProgramError.InvalidAccountData)
  else SwapV2.unpack_from_slice input

/-- The provided method `Pack::unpack` of `solana_program::program_pack`,
instantiated at `SwapV2` with the `IsInitialized` implementation of
src/state.rs: `unpack_unchecked`, then reject a record whose `is_initialized`
field is false with `ProgramError::UninitializedAccount`. -/
def SwapV2.unpack (input : List Nat) : Option (Except ProgramError SwapV2) :=
  match SwapV2.unpack_unchecked input with
  | none => none
  | some (.error e) => some (.error e)
  | some (.ok v) =>
    if v.is_initialized then some (.ok v) else some (.error ProgramError.UninitializedAccount)

/-- The encoder `SwapVersion::pack` of src/state.rs: write the version byte 2
at position 0 (`none` models the index panic on an empty buffer), then
`SwapV2::pack` into `dst[1..]`.  The returned list is the buffer left behind,
version byte included. -/
def SwapVersion.pack (src : SwapVersion) (dst : List Nat) :
    Option (Except ProgramError Unit × List Nat) :=
  match src with
  | .SwapV2 v =>
    match dst with
    | [] => none
    | _ :: _ =>
      let dst1 := dst.set 0 2
      match SwapV2.pack v (dst1.drop 1) with
      | none => none
      | some (r, rest) => some (r, dst1.take 1 ++ rest)

/-- The decoder `SwapVersion::unpack` of src/state.rs: `split_first` (empty
input is `ProgramError::InvalidAccountData`), dispatch on the version byte
(`2` is `SwapV2`, anything else `ProgramError::UninitializedAccount`). -/
def SwapVersion.unpack (input : List Nat) : Option (Except ProgramError SwapVersion) :=
  match input with
  | [] => some (.error ProgramError.InvalidAccountData)
  | version :: rest =>
    if version = 2 then
      match SwapV2.unpack rest with
      | none => none
      | some (.error e) => some (.error e)
      | some (.ok v) => some (.ok (.SwapV2 v))
    else some (.error ProgramError.UninitializedAccount)

/-- The probe `SwapVersion::is_initialized` of src/state.rs: a full decode,
collapsing every `Err` to `false` and reading the record flag on `Ok`. -/
def SwapVersion.is_initialized (input : List Nat) : Option Bool :=
  match SwapVersion.unpack input with
  | none => none
  | some (.ok (.SwapV2 v)) => some v.is_initialized
  | some (.error _) => some false

/-- The program id declared by `solana_program::declare_id!` in src/src/lib.rs:
the base58 decoding of the string MERLuDFBMmsHnsBPZw2sDQZHvXFMwp8EdjudcU2HKky. -/
def ID : Pubkey :=
  [5, 46, 202, 54, 135, 99, 165, 149, 95, 98, 115, 78, 64, 231, 114, 151,
    131, 136, 236, 43, 216, 245, 12, 107, 242, 35, 242, 45, 36, 123, 66, 174]

/-- The check `check_program_account` of src/src/lib.rs:
`ProgramError::IncorrectProgramId` unless the argument equals the declared id. -/
def check_program_account (program_id : Pubkey) : Except ProgramError Unit :=
  if program_id ≠ ID then .error ProgramError.IncorrectProgramId else .ok ()

/-- The struct `solana_program::instruction::AccountMeta`. -/
structure AccountMeta where
  pubkey : Pubkey
  is_signer : Bool
  is_writable : Bool
deriving DecidableEq, Repr

/-- The constructor `AccountMeta::new`: a writable account slot. -/
def AccountMeta.new (pubkey : Pubkey) (is_signer : Bool) : AccountMeta :=
  ⟨pubkey, is_signer, true⟩

/-- The constructor `AccountMeta::new_readonly`: a read-only account slot. -/
def AccountMeta.new_readonly (pubkey : Pubkey) (is_signer : Bool) : AccountMeta :=
  ⟨pubkey, is_signer, false⟩

/-- The struct `solana_program::instruction::Instruction`. -/
structure Instruction where
  program_id : Pubkey
  accounts : List AccountMeta
  data : List Nat
deriving DecidableEq, Repr

/-- The builder `initialize` of src/instruction.rs (its Rust name is a Lean
keyword, hence the `_ix` suffix): program id check, then the fixed account
template and the packed `Initialize` command. -/
def initialize_ix (program_id swap_account_address pool_authority_address : Pubkey)
    (swap_token_accounts_addresses swap_token_mint_addresses : List Pubkey)
    (pool_token_mint_address admin_token_mint_address : Pubkey)
    (nonce n_coins amplification_coefficient fee_numerator admin_fee_numerator : Nat)
    (admin_settings : AdminSettings) : Except ProgramError Instruction :=
  match check_program_account program_id with
  | .error e => .error e
  | .ok () =>
    .ok { program_id := program_id
          accounts :=
            AccountMeta.new swap_account_address false ::
              AccountMeta.new_readonly pool_authority_address false ::
              (swap_token_accounts_addresses.map (fun k => AccountMeta.new_readonly k false) ++
                swap_token_mint_addresses.map (fun k => AccountMeta.new_readonly k false) ++
                [AccountMeta.new_readonly pool_token_mint_address false,
                  AccountMeta.new_readonly admin_token_mint_address false])
          data := SwapInstruction.pack (.Initialize nonce amplification_coefficient
            fee_numerator admin_fee_numerator n_coins admin_settings) }

/-- The builder `add_liquidity` of src/instruction.rs. -/
def add_liquidity (program_id swap_account_address token_program_address
    pool_authority_address user_transfer_authority_address : Pubkey)
    (swap_token_addresses : List Pubkey) (pool_token_mint_address : Pubkey)
    (source_token_addresses : List Pubkey) (lp_token_account_address : Pubkey)
    (deposit_amounts : List Nat) (min_mint_amount : Nat) : Except ProgramError Instruction :=
  match check_program_account program_id with
  | .error e => .error e
  | .ok () =>
    .ok { program_id := program_id
          accounts :=
            AccountMeta.new_readonly swap_account_address false ::
              AccountMeta.new_readonly token_program_address false ::
              AccountMeta.new_readonly pool_authority_address false ::
              AccountMeta.new_readonly user_transfer_authority_address true ::
              (swap_token_addresses.map (fun k => AccountMeta.new k false) ++
                AccountMeta.new pool_token_mint_address false ::
                  (source_token_addresses.map (fun k => AccountMeta.new k false) ++
                    [AccountMeta.new lp_token_account_address false]))
          data := SwapInstruction.pack (.AddLiquidity deposit_amounts min_mint_amount) }

/-- The builder `remove_liquidity` of src/instruction.rs. -/
def remove_liquidity (program_id swap_account_address token_program_address
    pool_authority_address user_transfer_authority_address : Pubkey)
    (swap_token_accounts_addresses : List Pubkey) (pool_mint_address : Pubkey)
    (user_destination_token_account_addresses : List Pubkey)
    (lp_token_account_address : Pubkey) (unmint_amount : Nat)
    (minimum_amounts : List Nat) : Except ProgramError Instruction :=
  match check_program_account program_id with
  | .error e => .error e
  | .ok () =>
    .ok { program_id := program_id
          accounts :=
            AccountMeta.new_readonly swap_account_address false ::
              AccountMeta.new_readonly token_program_address false ::
              AccountMeta.new_readonly pool_authority_address false ::
              AccountMeta.new_readonly user_transfer_authority_address true ::
              (swap_token_accounts_addresses.map (fun k => AccountMeta.new k false) ++
                AccountMeta.new pool_mint_address false ::
                  (user_destination_token_account_addresses.map
                      (fun k => AccountMeta.new k false) ++
                    [AccountMeta.new lp_token_account_address false]))
          data := SwapInstruction.pack (.RemoveLiquidity unmint_amount minimum_amounts) }

/-- The builder `remove_liquidity_one_token` of src/instruction.rs. -/
def remove_liquidity_one_token (program_id swap_account_address token_program_address
    pool_authority_address user_transfer_authority_address : Pubkey)
    (swap_token_accounts_addresses : List Pubkey)
    (pool_mint_address user_destination_token_account_address
      lp_token_account_address : Pubkey)
    (unmint_amount minimum_out_amount : Nat) : Except ProgramError Instruction :=
  match check_program_account program_id with
  | .error e => .error e
  | .ok () =>
    .ok { program_id := program_id
          accounts :=
            AccountMeta.new_readonly swap_account_address false ::
              AccountMeta.new_readonly token_program_address false ::
              AccountMeta.new_readonly pool_authority_address false ::
              AccountMeta.new_readonly user_transfer_authority_address true ::
              (swap_token_accounts_addresses.map (fun k => AccountMeta.new k false) ++
                [AccountMeta.new pool_mint_address false,
                  AccountMeta.new user_destination_token_account_address false,
                  AccountMeta.new lp_token_account_address false])
          data := SwapInstruction.pack
            (.RemoveLiquidityOneToken unmint_amount minimum_out_amount) }

/-- The builder `exchange` of src/instruction.rs. -/
def exchange (program_id swap_account_address token_program_address
    pool_authority_address user_transfer_authority_address : Pubkey)
    (swap_token_accounts_addresses : List Pubkey)
    (source_token_account_address destination_token_account_address : Pubkey)
    (in_amount minimum_out_amount : Nat) : Except ProgramError Instruction :=
  match check_program_account program_id with
  | .error e => .error e
  | .ok () =>
    .ok { program_id := program_id
          accounts :=
            AccountMeta.new_readonly swap_account_address false ::
              AccountMeta.new_readonly token_program_address false ::
              AccountMeta.new_readonly pool_authority_address false ::
              AccountMeta.new_readonly user_transfer_authority_address true ::
              (swap_token_accounts_addresses.map (fun k => AccountMeta.new k false) ++
                [AccountMeta.new source_token_account_address false,
                  AccountMeta.new destination_token_account_address false])
          data := SwapInstruction.pack (.Exchange in_amount minimum_out_amount) }

/-- Scaffolding for positional reasoning about the 264-byte `SwapV2` layout:
the twelve regions written one after the other (flag byte, nonce byte, three
8-byte words, the 4-byte count, the 8-byte precision factor, the 32-byte
multiplier region, the 128-byte token-address region, two 32-byte mint
addresses, and the two admin flag bytes). -/
def swapSrc (b0 n1 : Nat) (B1 B2 B3 L P M T PM AM : List Nat) (s l : Nat) : List Nat :=
  b0 :: n1 :: (B1 ++ (B2 ++ (B3 ++ (L ++ (P ++ (M ++ (T ++ (PM ++ (AM ++ [s, l])))))))))

/-! Concrete wire vectors from the specification. -/

/-- Scenario 1 of the specification: the Initialize command encodes to the
documented byte string and decodes back. -/
theorem spec_scenario_one :
    SwapInstruction.pack (.Initialize 5 100 10 2 2 ⟨true, false⟩) =
      [0, 5, 2, 100, 0, 0, 0, 0, 0, 0, 0, 10, 0, 0, 0, 0, 0, 0, 0, 2, 0, 0, 0, 0, 0, 0, 0,
        1, 0] ∧
      SwapInstruction.unpack
          (SwapInstruction.pack (.Initialize 5 100 10 2 2 ⟨true, false⟩)) =
        some (.ok (.Initialize 5 100 10 2 2 ⟨true, false⟩)) :=
  ⟨rfl, rfl⟩

/-- Scenario 2 of the specification: the AddLiquidity command round-trips with
its count-prefixed vector. -/
theorem spec_scenario_two :
    SwapInstruction.unpack (SwapInstruction.pack (.AddLiquidity [1, 2, 3] 500)) =
      some (.ok (.AddLiquidity [1, 2, 3] 500)) := rfl

/-! Helper lemmas about the byte primitives. -/

theorem bytesLE_zero (x : Nat) : bytesLE 0 x = [] := rfl

theorem bytesLE_succ (k x : Nat) : bytesLE (k + 1) x = x % 256 :: bytesLE k (x / 256) := rfl

theorem leNat_nil : leNat [] = 0 := rfl

theorem leNat_cons (b : Nat) (r : List Nat) : leNat (b :: r) = b + 256 * leNat r := rfl

@[simp]
theorem length_bytesLE (k x : Nat) : (bytesLE k x).length = k := by
  induction k generalizing x with
  | zero => rfl
  | succ k ih => simp [bytesLE, ih]

theorem leNat_bytesLE8 (x : Nat) : leNat (bytesLE 8 x) = x % 2 ^ 64 := by
  simp only [bytesLE_succ, bytesLE_zero, leNat_cons, leNat_nil]
  omega

theorem leNat_bytesLE4 (x : Nat) : leNat (bytesLE 4 x) = x % 2 ^ 32 := by
  simp only [bytesLE_succ, bytesLE_zero, leNat_cons, leNat_nil]
  omega

@[simp]
theorem u8_to_bool_boolToU8 (b : Bool) : u8_to_bool (boolToU8 b) = .ok b := by
  cases b <;> rfl

@[simp]
theorem boolToU8_beq_one (b : Bool) : (boolToU8 b == 1) = b := by
  cases b <;> rfl

theorem append_drop_len {α : Type} (xs ys : List α) {n : Nat} (h : xs.length = n) :
    (xs ++ ys).drop n = ys := by
  subst h
  exact List.drop_left xs ys

theorem append_take_len {α : Type} (xs ys : List α) {n : Nat} (h : xs.length = n) :
    (xs ++ ys).take n = xs := by
  subst h
  exact List.take_left xs ys

theorem take_append_of_ge {α : Type} (xs ys : List α) (m : Nat) (h : xs.length ≤ m) :
    (xs ++ ys).take m = xs ++ ys.take (m - xs.length) := by
  rw [show m = xs.length + (m - xs.length) by omega, List.take_append]
  simp

/-! Helper lemmas about the instruction readers. -/

@[simp]
theorem unpack_u8_cons (b : Nat) (r : List Nat) :
    SwapInstruction.unpack_u8 (b :: r) = .ok (b, r) := rfl

@[simp]
theorem unpack_u8_nil :
    SwapInstruction.unpack_u8 [] = .error (ProgramError.Custom 0) := rfl

theorem unpack_u64_eq_ok (r : List Nat) (h : 8 ≤ r.length) :
    SwapInstruction.unpack_u64 r = .ok (leNat (r.take 8), r.drop 8) := by
  rw [SwapInstruction.unpack_u64, if_pos h]

theorem unpack_u64_short (r : List Nat) (h : r.length < 8) :
    SwapInstruction.unpack_u64 r = .error (ProgramError.Custom 0) := by
  rw [SwapInstruction.unpack_u64, if_neg (by omega)]
  rfl

theorem unpack_u32_eq_ok (r : List Nat) (h : 4 ≤ r.length) :
    SwapInstruction.unpack_u32 r = .ok (leNat (r.take 4), r.drop 4) := by
  rw [SwapInstruction.unpack_u32, if_pos h]

theorem unpack_u32_short (r : List Nat) (h : r.length < 4) :
    SwapInstruction.unpack_u32 r = .error (ProgramError.Custom 0) := by
  rw [SwapInstruction.unpack_u32, if_neg (by omega)]
  rfl

theorem unpack_u64_append (xs r : List Nat) (h : xs.length = 8) :
    SwapInstruction.unpack_u64 (xs ++ r) = .ok (leNat xs, r) := by
  rw [unpack_u64_eq_ok _ (by simp [h]), append_take_len xs r h, append_drop_len xs r h]

@[simp]
theorem unpack_u64_bytesLE (x : Nat) (r : List Nat) :
    SwapInstruction.unpack_u64 (bytesLE 8 x ++ r) = .ok (x % 2 ^ 64, r) := by
  rw [unpack_u64_append _ _ (length_bytesLE 8 x), leNat_bytesLE8]

@[simp]
theorem unpack_u64_bytesLE_nil (x : Nat) :
    SwapInstruction.unpack_u64 (bytesLE 8 x) = .ok (x % 2 ^ 64, []) := by
  have := unpack_u64_bytesLE x []
  simpa using this

theorem unpack_u32_append (xs r : List Nat) (h : xs.length = 4) :
    SwapInstruction.unpack_u32 (xs ++ r) = .ok (leNat xs, r) := by
  rw [unpack_u32_eq_ok _ (by simp [h]), append_take_len xs r h, append_drop_len xs r h]

@[simp]
theorem unpack_u32_bytesLE (x : Nat) (r : List Nat) :
    SwapInstruction.unpack_u32 (bytesLE 4 x ++ r) = .ok (x % 2 ^ 32, r) := by
  rw [unpack_u32_append _ _ (length_bytesLE 4 x), leNat_bytesLE4]

theorem unpack_u64_take (x : Nat) (rest : List Nat) (m : Nat) (h : 8 ≤ m) :
    SwapInstruction.unpack_u64 ((bytesLE 8 x ++ rest).take m) =
      .ok (x % 2 ^ 64, rest.take (m - 8)) := by
  rw [take_append_of_ge _ _ m (by simp; omega), length_bytesLE, unpack_u64_bytesLE]

theorem unpack_u32_take (x : Nat) (rest : List Nat) (m : Nat) (h : 4 ≤ m) :
    SwapInstruction.unpack_u32 ((bytesLE 4 x ++ rest).take m) =
      .ok (x % 2 ^ 32, rest.take (m - 4)) := by
  rw [take_append_of_ge _ _ m (by simp; omega), length_bytesLE, unpack_u32_bytesLE]

/-! Helper lemmas about uniform-width chunked regions. -/

theorem length_flatten_uniform (w : Nat) (ds : List (List Nat))
    (h : ∀ s ∈ ds, s.length = w) : ds.flatten.length = w * ds.length := by
  induction ds with
  | nil => simp
  | cons s rest ih =>
    have hs : s.length = w := h s (by simp)
    have hrest : ∀ t ∈ rest, t.length = w := fun t ht => h t (by simp [ht])
    simp [hs, ih hrest]
    ring

theorem length_flatMap_bytesLE8 (ds : List Nat) :
    (ds.flatMap (bytesLE 8)).length = 8 * ds.length := by
  rw [List.flatMap_def, length_flatten_uniform 8]
  · simp
  · intro s hs
    rcases List.mem_map.mp hs with ⟨x, _, rfl⟩
    simp

theorem flatten_drop_uniform (w : Nat) (tail : List Nat) :
    ∀ (i : Nat) (ds : List (List Nat)), (∀ s ∈ ds, s.length = w) → i ≤ ds.length →
      (ds.flatten ++ tail).drop (w * i) = (ds.drop i).flatten ++ tail := by
  intro i
  induction i with
  | zero => simp
  | succ i ih =>
    intro ds h hle
    match ds with
    | s :: rest =>
      have hs : s.length = w := h s (by simp)
      have hrest : ∀ t ∈ rest, t.length = w := fun t ht => h t (by simp [ht])
      rw [List.flatten_cons, List.append_assoc, show w * (i + 1) = w + w * i by ring,
        ← List.drop_drop, append_drop_len s _ hs, ih rest hrest (by simpa using hle)]
      simp

/-! Helper lemmas about the element loop of the instruction decoder. -/

theorem readLoop_flat (ds : List Nat) (tail : List Nat) (hds : ∀ x ∈ ds, x < 2 ^ 64) :
    ∀ (k i : Nat), i + k = ds.length →
      SwapInstruction.readLoop (ds.flatMap (bytesLE 8) ++ tail) i k = some (.ok (ds.drop i)) := by
  intro k
  induction k with
  | zero =>
    intro i hi
    rw [show i = ds.length by omega, List.drop_length]
    rfl
  | succ k ih =>
    intro i hi
    have hileft : i < ds.length := by omega
    have hlen : (ds.flatMap (bytesLE 8) ++ tail).length = 8 * ds.length + tail.length := by
      rw [List.length_append, length_flatMap_bytesLE8]
    have hmem : ∀ s ∈ ds.map (bytesLE 8), s.length = 8 := by
      intro s hs
      rcases List.mem_map.mp hs with ⟨x, _, rfl⟩
      simp
    have hdropi : (ds.flatMap (bytesLE 8) ++ tail).drop (i * 8) =
        ((ds.drop i).map (bytesLE 8)).flatten ++ tail := by
      rw [List.flatMap_def, Nat.mul_comm i 8,
        flatten_drop_uniform 8 tail i (ds.map (bytesLE 8)) hmem (by simpa using hileft.le),
        ← List.map_drop]
    have hdcons : ds.drop i = ds[i] :: ds.drop (i + 1) := List.drop_eq_getElem_cons hileft
    simp only [SwapInstruction.readLoop]
    rw [if_neg (by omega), hdropi, hdcons]
    simp only [List.map_cons, List.flatten_cons, List.append_assoc]
    rw [unpack_u64_bytesLE,
      Nat.mod_eq_of_lt (hds ds[i] (List.getElem_mem hileft)),
      ih (i + 1) (by omega)]

theorem readLoop_short (rest : List Nat) :
    ∀ (k i : Nat), 8 * i ≤ rest.length → rest.length < 8 * (i + k) →
      SwapInstruction.readLoop rest i k = some (.error (ProgramError.Custom 0)) := by
  intro k
  induction k with
  | zero => omega
  | succ k ih =>
    intro i hlo hhi
    simp only [SwapInstruction.readLoop]
    rw [if_neg (by omega)]
    by_cases h8 : 8 ≤ (rest.drop (i * 8)).length
    · rw [unpack_u64_eq_ok _ h8]
      have : rest.length ≥ 8 * (i + 1) := by
        simp only [List.length_drop] at h8
        omega
      rw [ih (i + 1) (by omega) (by omega)]
    · rw [unpack_u64_short _ (by omega)]

theorem readLoop_ok_exists (rest : List Nat) :
    ∀ (k i : Nat), 8 * (i + k) ≤ rest.length →
      ∃ xs, SwapInstruction.readLoop rest i k = some (.ok xs) := by
  intro k
  induction k with
  | zero => exact fun i _ => ⟨[], rfl⟩
  | succ k ih =>
    intro i h
    have h8 : 8 ≤ (rest.drop (i * 8)).length := by
      simp only [List.length_drop]
      omega
    rcases ih (i + 1) (by omega) with ⟨xs, hxs⟩
    refine ⟨leNat ((rest.drop (i * 8)).take 8) :: xs, ?_⟩
    simp only [SwapInstruction.readLoop]
    rw [if_neg (by omega), unpack_u64_eq_ok _ h8, hxs]

/-! Claim C1: the instruction round-trip. -/

/-- Claim C1 (corrected): for every well-formed command `c` whose vector
length is strictly below `2 ^ 32`, `SwapInstruction.unpack (SwapInstruction.pack c)`
succeeds and returns `c` itself.  The bound is forced by the `len as u32` cast
in `pack` (see `C1_counterexample`). -/
theorem C1_roundtrip (c : SwapInstruction) (hwf : c.wf) (hlen : c.vecLen < 2 ^ 32) :
    SwapInstruction.unpack (SwapInstruction.pack c) = some (.ok c) := by
  cases c with
  | Initialize nonce a f af n s =>
    obtain ⟨h1, h2, h3, h4, h5⟩ := hwf
    simp [SwapInstruction.pack, SwapInstruction.unpack, List.append_assoc,
      Nat.mod_eq_of_lt h2, Nat.mod_eq_of_lt h3, Nat.mod_eq_of_lt h4]
    omega
  | AddLiquidity ds m =>
    obtain ⟨h1, h2⟩ := hwf
    simp only [SwapInstruction.vecLen] at hlen
    have hloop := readLoop_flat ds (bytesLE 8 m) h1 ds.length 0 (by omega)
    simp only [SwapInstruction.pack, SwapInstruction.unpack, unpack_u8_cons,
      List.append_assoc, unpack_u32_bytesLE, Nat.mod_eq_of_lt hlen]
    rw [hloop]
    simp only [List.drop_zero]
    rw [if_neg (by rw [List.length_append, length_flatMap_bytesLE8]; simp; omega)]
    rw [Nat.mul_comm, append_drop_len _ _ (length_flatMap_bytesLE8 ds), unpack_u64_bytesLE_nil,
      Nat.mod_eq_of_lt h2]
  | RemoveLiquidity u ms =>
    obtain ⟨h1, h2⟩ := hwf
    simp only [SwapInstruction.vecLen] at hlen
    have hloop := readLoop_flat ms [] h2 ms.length 0 (by omega)
    rw [List.append_nil] at hloop
    simp only [SwapInstruction.pack, SwapInstruction.unpack, unpack_u8_cons,
      List.append_assoc, unpack_u64_bytesLE, Nat.mod_eq_of_lt h1, unpack_u32_bytesLE,
      Nat.mod_eq_of_lt hlen]
    rw [hloop]
    simp
  | RemoveLiquidityOneToken u m =>
    obtain ⟨h1, h2⟩ := hwf
    simp [SwapInstruction.pack, SwapInstruction.unpack, List.append_assoc,
      Nat.mod_eq_of_lt h1, Nat.mod_eq_of_lt h2]
    omega
  | Exchange u m =>
    obtain ⟨h1, h2⟩ := hwf
    simp [SwapInstruction.pack, SwapInstruction.unpack, List.append_assoc,
      Nat.mod_eq_of_lt h1, Nat.mod_eq_of_lt h2]
    omega
  | GetVirtualPrice => rfl

/-- Witness for C1_roundtrip at a concrete command. -/
theorem C1_roundtrip_witness :
    (SwapInstruction.AddLiquidity [1, 2, 3] 500).wf ∧
      (SwapInstruction.AddLiquidity [1, 2, 3] 500).vecLen < 2 ^ 32 ∧
      SwapInstruction.unpack (SwapInstruction.pack (.AddLiquidity [1, 2, 3] 500)) =
        some (.ok (.AddLiquidity [1, 2, 3] 500)) :=
  ⟨by decide, by decide, C1_roundtrip (.AddLiquidity [1, 2, 3] 500) (by decide) (by decide)⟩

/-- When the deposit vector length is a nonzero multiple of `2 ^ 32`, the
`len as u32` count wraps to 0 and decoding the encoding yields the empty
vector with the first element misread as the minimum mint amount. -/
theorem addLiquidity_wrap (d m : Nat) (rest : List Nat) (hd : d < 2 ^ 64)
    (hmod : (d :: rest).length % 2 ^ 32 = 0) :
    SwapInstruction.unpack (SwapInstruction.pack (.AddLiquidity (d :: rest) m)) =
      some (.ok (.AddLiquidity [] d)) := by
  simp only [SwapInstruction.pack, SwapInstruction.unpack, unpack_u8_cons,
    List.append_assoc, unpack_u32_bytesLE, hmod]
  simp only [SwapInstruction.readLoop, Nat.zero_mul, List.drop_zero]
  rw [if_neg (Nat.not_lt_zero _)]
  simp only [List.flatMap_cons, List.append_assoc, unpack_u64_bytesLE,
    Nat.mod_eq_of_lt hd]

/-- Counterexample to C1 as frozen (which allows deposit vectors of any
length): a deposit vector of length `2 ^ 32` makes the `len as u32` count
field wrap to 0, so decoding the encoding succeeds but yields a different
command (empty vector, first element as the minimum mint amount). -/
theorem C1_counterexample :
    SwapInstruction.unpack
        (SwapInstruction.pack (.AddLiquidity (List.replicate (2 ^ 32) 7) 7)) =
      some (.ok (.AddLiquidity [] 7)) ∧
      SwapInstruction.AddLiquidity (List.replicate (2 ^ 32) 7) 7 ≠ .AddLiquidity [] 7 := by
  have hrep : List.replicate (2 ^ 32) (7 : Nat) = 7 :: List.replicate (2 ^ 32 - 1) 7 := by
    conv_lhs => rw [show (2 ^ 32 : Nat) = (2 ^ 32 - 1) + 1 by norm_num, List.replicate_succ]
  constructor
  · rw [hrep]
    refine addLiquidity_wrap 7 7 _ (by norm_num) ?_
    rw [List.length_cons, List.length_replicate]
    norm_num
  · intro h
    have h2 := congrArg SwapInstruction.vecLen h
    simp only [SwapInstruction.vecLen, List.length_replicate] at h2
    exact absurd h2 (by norm_num)


/-! Claim C4: truncation rejection. -/

theorem unpack_u64_take_short (r : List Nat) (m : Nat) (h : m < 8) :
    SwapInstruction.unpack_u64 (r.take m) = .error (ProgramError.Custom 0) := by
  apply unpack_u64_short
  rw [List.length_take]
  omega

theorem unpack_u32_take_short (r : List Nat) (m : Nat) (h : m < 4) :
    SwapInstruction.unpack_u32 (r.take m) = .error (ProgramError.Custom 0) := by
  apply unpack_u32_short
  rw [List.length_take]
  omega

theorem unpack_take_short (c : SwapInstruction) (j : Nat) (hj : j < c.requiredLen) :
    SwapInstruction.unpack ((SwapInstruction.pack c).take j) =
      some (.error (ProgramError.Custom 0)) := by
  cases c with
  | Initialize nonce a f af n s =>
    simp only [SwapInstruction.requiredLen] at hj
    rcases j with _ | (_ | (_ | j))
    · rfl
    · rfl
    · rfl
    · simp only [SwapInstruction.pack, SwapInstruction.unpack, List.append_assoc,
        List.take_succ_cons, unpack_u8_cons]
      by_cases h1 : 8 ≤ j
      case neg =>
        have hb : j < 8 := by omega
        simp only [unpack_u64_take_short _ _ hb]
      case pos =>
        simp only [unpack_u64_take a _ j h1]
        by_cases h2 : 8 ≤ j - 8
        case neg =>
          have hb : j - 8 < 8 := by omega
          simp only [unpack_u64_take_short _ _ hb]
        case pos =>
          simp only [unpack_u64_take f _ _ h2]
          by_cases h3 : 8 ≤ j - 8 - 8
          case neg =>
            have hb : j - 8 - 8 < 8 := by omega
            simp only [unpack_u64_take_short _ _ hb]
          case pos =>
            simp only [unpack_u64_take af _ _ h3]
            have : j - 8 - 8 - 8 = 0 ∨ j - 8 - 8 - 8 = 1 := by omega
            rcases this with h | h <;> rw [h]
            · rfl
            · rfl
  | AddLiquidity ds m =>
    simp only [SwapInstruction.requiredLen] at hj
    have hLn : ds.length % 2 ^ 32 ≤ ds.length := Nat.mod_le _ _
    rcases j with _ | j
    · rfl
    · simp only [SwapInstruction.pack, SwapInstruction.unpack, List.append_assoc,
        List.take_succ_cons, unpack_u8_cons]
      by_cases h4 : 4 ≤ j
      case neg =>
        have hb : j < 4 := by omega
        simp only [unpack_u32_take_short _ _ hb]
      case pos =>
        simp only [unpack_u32_take ds.length _ j h4]
        have hRlen : (((ds.flatMap (bytesLE 8)) ++ bytesLE 8 m).take (j - 4)).length = j - 4 := by
          rw [List.length_take, List.length_append, length_flatMap_bytesLE8, length_bytesLE]
          omega
        by_cases hloop : j - 4 < 8 * (ds.length % 2 ^ 32)
        case pos =>
          have hlo : 8 * 0 ≤ (((ds.flatMap (bytesLE 8)) ++ bytesLE 8 m).take (j - 4)).length := by
            omega
          have hhi : (((ds.flatMap (bytesLE 8)) ++ bytesLE 8 m).take (j - 4)).length <
              8 * (0 + ds.length % 2 ^ 32) := by
            rw [hRlen]
            omega
          simp only [readLoop_short _ _ 0 hlo hhi]
        case neg =>
          rcases readLoop_ok_exists (((ds.flatMap (bytesLE 8)) ++ bytesLE 8 m).take (j - 4))
              (ds.length % 2 ^ 32) 0 (by rw [hRlen]; omega) with ⟨xs, hxs⟩
          simp only [hxs]
          rw [if_neg (by rw [hRlen]; omega)]
          have hd : ((((ds.flatMap (bytesLE 8)) ++ bytesLE 8 m).take (j - 4)).drop
              (ds.length % 2 ^ 32 * 8)).length < 8 := by
            rw [List.length_drop, hRlen]
            omega
          simp only [unpack_u64_short _ hd]
  | RemoveLiquidity u ms =>
    simp only [SwapInstruction.requiredLen] at hj
    have hLn : ms.length % 2 ^ 32 ≤ ms.length := Nat.mod_le _ _
    rcases j with _ | j
    · rfl
    · simp only [SwapInstruction.pack, SwapInstruction.unpack, List.append_assoc,
        List.take_succ_cons, unpack_u8_cons]
      by_cases h8 : 8 ≤ j
      case neg =>
        have hb : j < 8 := by omega
        simp only [unpack_u64_take_short _ _ hb]
      case pos =>
        simp only [unpack_u64_take u _ j h8]
        by_cases h4 : 4 ≤ j - 8
        case neg =>
          have hb : j - 8 < 4 := by omega
          simp only [unpack_u32_take_short _ _ hb]
        case pos =>
          simp only [unpack_u32_take ms.length _ _ h4]
          have hRlen : ((ms.flatMap (bytesLE 8)).take (j - 8 - 4)).length = j - 8 - 4 := by
            rw [List.length_take, length_flatMap_bytesLE8]
            omega
          have hlo : 8 * 0 ≤ ((ms.flatMap (bytesLE 8)).take (j - 8 - 4)).length := by omega
          have hhi : ((ms.flatMap (bytesLE 8)).take (j - 8 - 4)).length <
              8 * (0 + ms.length % 2 ^ 32) := by
            rw [hRlen]
            omega
          simp only [readLoop_short _ _ 0 hlo hhi]
  | RemoveLiquidityOneToken u m =>
    simp only [SwapInstruction.requiredLen] at hj
    rcases j with _ | j
    · rfl
    · simp only [SwapInstruction.pack, SwapInstruction.unpack, List.append_assoc,
        List.take_succ_cons, unpack_u8_cons]
      by_cases h8 : 8 ≤ j
      case neg =>
        have hb : j < 8 := by omega
        simp only [unpack_u64_take_short _ _ hb]
      case pos =>
        simp only [unpack_u64_take u _ j h8]
        have hb : j - 8 < 8 := by omega
        simp only [unpack_u64_take_short _ _ hb]
  | Exchange u m =>
    simp only [SwapInstruction.requiredLen] at hj
    rcases j with _ | j
    · rfl
    · simp only [SwapInstruction.pack, SwapInstruction.unpack, List.append_assoc,
        List.take_succ_cons, unpack_u8_cons]
      by_cases h8 : 8 ≤ j
      case neg =>
        have hb : j < 8 := by omega
        simp only [unpack_u64_take_short _ _ hb]
      case pos =>
        simp only [unpack_u64_take u _ j h8]
        have hb : j - 8 < 8 := by omega
        simp only [unpack_u64_take_short _ _ hb]
  | GetVirtualPrice =>
    simp only [SwapInstruction.requiredLen] at hj
    rcases j with _ | j
    · rfl
    · omega

/-- Claim C4: decoding any prefix of a valid encoding that is strictly shorter
than the bytes the decoder requires for that command fails with a
malformed-input error kind (in fact always `SwapError::InvalidInstruction`,
which is one of the two kinds the claim allows), and never panics or
succeeds. -/
theorem C4_truncation (c : SwapInstruction) (p : List Nat)
    (hpre : p <+: SwapInstruction.pack c) (hp : p.length < c.requiredLen) :
    ∃ e, SwapInstruction.unpack p = some (.error e) ∧
      (e = SwapError.toProgramError .InvalidInstruction ∨
        e = ProgramError.InvalidAccountData) := by
  have hp2 : p = (SwapInstruction.pack c).take p.length := by
    rcases hpre with ⟨t, ht⟩
    rw [← ht, List.take_left]
  refine ⟨ProgramError.Custom 0, ?_, Or.inl rfl⟩
  rw [hp2]
  exact unpack_take_short c p.length hp

/-- Witness for C4_truncation: a 10-byte prefix of the 17-byte Exchange
encoding. -/
theorem C4_truncation_witness :
    ((SwapInstruction.pack (.Exchange 5 6)).take 10 <+:
        SwapInstruction.pack (.Exchange 5 6)) ∧
      ((SwapInstruction.pack (.Exchange 5 6)).take 10).length <
        (SwapInstruction.Exchange 5 6).requiredLen ∧
      ∃ e, SwapInstruction.unpack ((SwapInstruction.pack (.Exchange 5 6)).take 10) =
          some (.error e) ∧
        (e = SwapError.toProgramError .InvalidInstruction ∨
          e = ProgramError.InvalidAccountData) :=
  ⟨List.take_prefix 10 _, by decide,
    C4_truncation (.Exchange 5 6) _ (List.take_prefix 10 _) (by decide)⟩

/-! Lemmas about the pool-record codec, and claim C2. -/

theorem SwapV2_LEN_eq : SwapV2.LEN = 264 := rfl

theorem SwapVersion_LATEST_LEN_eq : SwapVersion.LATEST_LEN = 265 := rfl

theorem map_leNat_map_bytesLE8 (pm : List Nat) (h : ∀ x ∈ pm, x < 2 ^ 64) :
    (pm.map (bytesLE 8)).map leNat = pm := by
  induction pm with
  | nil => rfl
  | cons x rest ih =>
    simp only [List.map_cons]
    rw [leNat_bytesLE8, Nat.mod_eq_of_lt (h x (by simp)),
      ih (fun y hy => h y (by simp [hy]))]

theorem writeSlots_flat (w : Nat) (slots : List (List Nat)) :
    ∀ old : List Nat, (∀ s ∈ slots, s.length = w) → w * slots.length ≤ old.length →
      writeSlots w slots old = some (slots.flatten ++ old.drop (w * slots.length)) := by
  induction slots with
  | nil =>
    intro old _ _
    simp [writeSlots]
  | cons s rest ih =>
    intro old h hle
    have hmul : w * (rest.length + 1) = w * rest.length + w := by ring
    simp only [List.length_cons] at hle
    rw [hmul] at hle
    have hs : s.length = w := h s (by simp)
    have hrest : ∀ t ∈ rest, t.length = w := fun t ht => h t (by simp [ht])
    have hle2 : w * rest.length ≤ (old.drop w).length := by
      rw [List.length_drop]
      omega
    simp only [writeSlots]
    rw [if_pos ⟨hs, by omega⟩, ih (old.drop w) hrest hle2]
    simp only [List.flatten_cons, List.append_assoc, List.drop_drop, List.length_cons]
    rw [hmul, Nat.add_comm (w * rest.length) w]

theorem readSlots_flat (w : Nat) (ds : List (List Nat)) (tail : List Nat)
    (h : ∀ s ∈ ds, s.length = w) :
    ∀ (k i : Nat), i + k = ds.length →
      readSlots w (ds.flatten ++ tail) i k = some (ds.drop i) := by
  intro k
  induction k with
  | zero =>
    intro i hi
    rw [show i = ds.length by omega, List.drop_length]
    rfl
  | succ k ih =>
    intro i hi
    have hileft : i < ds.length := by omega
    have hlen : (ds.flatten ++ tail).length = w * ds.length + tail.length := by
      rw [List.length_append, length_flatten_uniform w ds h]
    have hbound : i * w + w ≤ (ds.flatten ++ tail).length := by
      have h1 : (i + 1) * w ≤ ds.length * w := Nat.mul_le_mul_right w hileft
      have h2 : (i + 1) * w = i * w + w := by ring
      have h3 : ds.length * w = w * ds.length := by ring
      omega
    have hdropi : (ds.flatten ++ tail).drop (i * w) = (ds.drop i).flatten ++ tail := by
      rw [Nat.mul_comm i w, flatten_drop_uniform w tail i ds h hileft.le]
    have hdcons : ds.drop i = ds[i] :: ds.drop (i + 1) := List.drop_eq_getElem_cons hileft
    simp only [readSlots]
    rw [if_pos hbound, hdropi, hdcons]
    simp only [List.flatten_cons, List.append_assoc]
    rw [append_take_len _ _ (h ds[i] (List.getElem_mem hileft)), ih (i + 1) (by omega)]

theorem readSlots_exists (w : Nat) (region : List Nat) :
    ∀ (k i : Nat), (i + k) * w ≤ region.length →
      ∃ out, readSlots w region i k = some out := by
  intro k
  induction k with
  | zero => exact fun i _ => ⟨[], rfl⟩
  | succ k ih =>
    intro i hik
    have h1 : (i + 1) * w ≤ (i + (k + 1)) * w := Nat.mul_le_mul_right w (by omega)
    have h2 : (i + 1) * w = i * w + w := by ring
    rcases ih (i + 1) (by
      have : (i + 1 + k) * w = (i + (k + 1)) * w := by ring
      omega) with ⟨out, hout⟩
    refine ⟨(region.drop (i * w)).take w :: out, ?_⟩
    simp only [readSlots]
    rw [if_pos (by omega), hout]

theorem swapSrc_length (b0 n1 s l : Nat) (B1 B2 B3 L P M T PM AM : List Nat)
    (hB1 : B1.length = 8) (hB2 : B2.length = 8) (hB3 : B3.length = 8)
    (hL : L.length = 4) (hP : P.length = 8) (hM : M.length = 32) (hT : T.length = 128)
    (hPM : PM.length = 32) (hAM : AM.length = 32) :
    (swapSrc b0 n1 B1 B2 B3 L P M T PM AM s l).length = 264 := by
  simp only [swapSrc, List.length_cons, List.length_append, List.length_nil, hB1, hB2, hB3,
    hL, hP, hM, hT, hPM, hAM]

theorem unpack_from_slice_shape (b0 n1 s l : Nat) (B1 B2 B3 L P M T PM AM : List Nat)
    (hB1 : B1.length = 8) (hB2 : B2.length = 8) (hB3 : B3.length = 8)
    (hL : L.length = 4) (hP : P.length = 8) (hM : M.length = 32) (hT : T.length = 128)
    (hPM : PM.length = 32) (hAM : AM.length = 32)
    (ms ts : List (List Nat))
    (hms : readSlots 8 M 0 (leNat L) = some ms)
    (hts : readSlots 32 T 0 (leNat L) = some ts)
    (hb0 : b0 = 0 ∨ b0 = 1) (hs : s = 0 ∨ s = 1) (hl : l = 0 ∨ l = 1) :
    SwapV2.unpack_from_slice (swapSrc b0 n1 B1 B2 B3 L P M T PM AM s l) =
      some (.ok ⟨b0 == 1, n1, leNat B1, leNat B2, leNat B3, leNat P,
        ms.map leNat, ts, PM, AM, s == 1, l == 1⟩) := by
  have hlen : (swapSrc b0 n1 B1 B2 B3 L P M T PM AM s l).length = 264 :=
    swapSrc_length b0 n1 s l B1 B2 B3 L P M T PM AM hB1 hB2 hB3 hL hP hM hT hPM hAM
  have e2 : (swapSrc b0 n1 B1 B2 B3 L P M T PM AM s l).drop 2 =
      B1 ++ (B2 ++ (B3 ++ (L ++ (P ++ (M ++ (T ++ (PM ++ (AM ++ [s, l])))))))) := rfl
  have e10 : (swapSrc b0 n1 B1 B2 B3 L P M T PM AM s l).drop 10 =
      B2 ++ (B3 ++ (L ++ (P ++ (M ++ (T ++ (PM ++ (AM ++ [s, l]))))))) := by
    rw [show (10 : Nat) = 2 + 8 by norm_num, ← List.drop_drop, e2, append_drop_len _ _ hB1]
  have e18 : (swapSrc b0 n1 B1 B2 B3 L P M T PM AM s l).drop 18 =
      B3 ++ (L ++ (P ++ (M ++ (T ++ (PM ++ (AM ++ [s, l])))))) := by
    rw [show (18 : Nat) = 10 + 8 by norm_num, ← List.drop_drop, e10, append_drop_len _ _ hB2]
  have e26 : (swapSrc b0 n1 B1 B2 B3 L P M T PM AM s l).drop 26 =
      L ++ (P ++ (M ++ (T ++ (PM ++ (AM ++ [s, l]))))) := by
    rw [show (26 : Nat) = 18 + 8 by norm_num, ← List.drop_drop, e18, append_drop_len _ _ hB3]
  have e30 : (swapSrc b0 n1 B1 B2 B3 L P M T PM AM s l).drop 30 =
      P ++ (M ++ (T ++ (PM ++ (AM ++ [s, l])))) := by
    rw [show (30 : Nat) = 26 + 4 by norm_num, ← List.drop_drop, e26, append_drop_len _ _ hL]
  have e38 : (swapSrc b0 n1 B1 B2 B3 L P M T PM AM s l).drop 38 =
      M ++ (T ++ (PM ++ (AM ++ [s, l]))) := by
    rw [show (38 : Nat) = 30 + 8 by norm_num, ← List.drop_drop, e30, append_drop_len _ _ hP]
  have e70 : (swapSrc b0 n1 B1 B2 B3 L P M T PM AM s l).drop 70 =
      T ++ (PM ++ (AM ++ [s, l])) := by
    rw [show (70 : Nat) = 38 + 32 by norm_num, ← List.drop_drop, e38, append_drop_len _ _ hM]
  have e198 : (swapSrc b0 n1 B1 B2 B3 L P M T PM AM s l).drop 198 =
      PM ++ (AM ++ [s, l]) := by
    rw [show (198 : Nat) = 70 + 128 by norm_num, ← List.drop_drop, e70, append_drop_len _ _ hT]
  have e230 : (swapSrc b0 n1 B1 B2 B3 L P M T PM AM s l).drop 230 = AM ++ [s, l] := by
    rw [show (230 : Nat) = 198 + 32 by norm_num, ← List.drop_drop, e198, append_drop_len _ _ hPM]
  have e262 : (swapSrc b0 n1 B1 B2 B3 L P M T PM AM s l).drop 262 = [s, l] := by
    rw [show (262 : Nat) = 230 + 32 by norm_num, ← List.drop_drop, e230, append_drop_len _ _ hAM]
  have g262 : (swapSrc b0 n1 B1 B2 B3 L P M T PM AM s l).getD 262 0 = s := by
    have h0 : (swapSrc b0 n1 B1 B2 B3 L P M T PM AM s l).getD 262 0 =
        ((swapSrc b0 n1 B1 B2 B3 L P M T PM AM s l).drop 262).getD 0 0 := by
      rw [List.getD_eq_getElem?_getD, List.getD_eq_getElem?_getD, List.getElem?_drop]
    rw [h0, e262, List.getD_cons_zero]
  have g263 : (swapSrc b0 n1 B1 B2 B3 L P M T PM AM s l).getD 263 0 = l := by
    have h0 : (swapSrc b0 n1 B1 B2 B3 L P M T PM AM s l).getD 263 0 =
        ((swapSrc b0 n1 B1 B2 B3 L P M T PM AM s l).drop 262).getD 1 0 := by
      rw [List.getD_eq_getElem?_getD, List.getD_eq_getElem?_getD, List.getElem?_drop]
    rw [h0, e262, List.getD_cons_succ, List.getD_cons_zero]
  have g0 : (swapSrc b0 n1 B1 B2 B3 L P M T PM AM s l).getD 0 0 = b0 := rfl
  have g1 : (swapSrc b0 n1 B1 B2 B3 L P M T PM AM s l).getD 1 0 = n1 := rfl
  simp only [SwapV2.unpack_from_slice, SwapV2_LEN_eq, hlen, g0, g1, e2, e10, e18, e26, e30,
    e38, e70, e198, e230, append_take_len _ _ hB1, append_take_len _ _ hB2,
    append_take_len _ _ hB3, append_take_len _ _ hL, append_take_len _ _ hP,
    append_take_len _ _ hM, append_take_len _ _ hT, append_take_len _ _ hPM,
    append_take_len _ _ hAM, g262, g263, hms, hts]
  rw [if_neg (lt_irrefl 264), if_pos hb0, if_pos hs, if_pos hl]

theorem pack_into_slice_eq (v : SwapV2) (dst : List Nat) (h : dst.length = 264)
    (hpm : v.precision_multipliers.length ≤ 4) (hta : v.token_account_addresses.length ≤ 4)
    (hpk : ∀ a ∈ v.token_account_addresses, a.length = 32)
    (hpool : v.pool_mint_address.length = 32)
    (hadmin : v.admin_token_mint_address.length = 32) :
    SwapV2.pack_into_slice v dst =
      some (swapSrc (boolToU8 v.is_initialized) v.nonce
        (bytesLE 8 v.amplification_coefficient) (bytesLE 8 v.fee_numerator)
        (bytesLE 8 v.admin_fee_numerator) (bytesLE 4 v.token_account_addresses.length)
        (bytesLE 8 v.precision_factor)
        (v.precision_multipliers.flatMap (bytesLE 8) ++
          ((dst.drop 38).take 32).drop (8 * v.precision_multipliers.length))
        (v.token_account_addresses.flatten ++
          ((dst.drop 70).take 128).drop (32 * v.token_account_addresses.length))
        v.pool_mint_address v.admin_token_mint_address
        (boolToU8 v.admin_settings.swap_enabled)
        (boolToU8 v.admin_settings.add_liquidity_enabled)) := by
  have hmlen : ((dst.drop 38).take 32).length = 32 := by
    rw [List.length_take, List.length_drop, h]
    omega
  have htlen : ((dst.drop 70).take 128).length = 128 := by
    rw [List.length_take, List.length_drop, h]
    omega
  have hw1 : writeSlots 8 (v.precision_multipliers.map (bytesLE 8)) ((dst.drop 38).take 32) =
      some ((v.precision_multipliers.map (bytesLE 8)).flatten ++
        ((dst.drop 38).take 32).drop (8 * v.precision_multipliers.length)) := by
    have hb : 8 * (v.precision_multipliers.map (bytesLE 8)).length ≤
        ((dst.drop 38).take 32).length := by
      rw [List.length_map, hmlen]
      omega
    have := writeSlots_flat 8 (v.precision_multipliers.map (bytesLE 8)) ((dst.drop 38).take 32)
      (by
        intro t ht
        rcases List.mem_map.mp ht with ⟨x, _, rfl⟩
        simp) hb
    rw [this, List.length_map]
  have hw2 : writeSlots 32 v.token_account_addresses ((dst.drop 70).take 128) =
      some (v.token_account_addresses.flatten ++
        ((dst.drop 70).take 128).drop (32 * v.token_account_addresses.length)) := by
    have hb : 32 * v.token_account_addresses.length ≤ ((dst.drop 70).take 128).length := by
      rw [htlen]
      omega
    exact writeSlots_flat 32 v.token_account_addresses ((dst.drop 70).take 128) hpk hb
  have hdrop : dst.drop 264 = [] := List.drop_eq_nil_of_le (by omega)
  simp only [SwapV2.pack_into_slice, SwapV2_LEN_eq, h]
  rw [if_neg (lt_irrefl 264)]
  simp only [hw1, hw2]
  rw [if_pos hpool, if_pos hadmin, hdrop]
  simp only [swapSrc, ← List.flatMap_def, List.append_assoc, List.append_nil,
    List.cons_append, List.nil_append]

theorem boolToU8_or (b : Bool) : boolToU8 b = 0 ∨ boolToU8 b = 1 := by
  cases b
  · exact Or.inl rfl
  · exact Or.inr rfl

set_option maxRecDepth 8192 in
/-- Claim C2 (corrected): packing an initialized well-formed record with coin
count at most 4 into a zero-filled buffer of length `LATEST_LEN` succeeds, the
encoded buffer is exactly `LATEST_LEN` bytes regardless of the coin count, and
unpacking it returns the record exactly.  The `is_initialized = true`
hypothesis is forced by the `IsInitialized` gate of the `Pack` trait (see
`C2_counterexample`). -/
theorem C2_roundtrip (v : SwapV2) (hwf : v.wf) (hinit : v.is_initialized = true)
    (hn : v.precision_multipliers.length = v.token_account_addresses.length)
    (hle : v.token_account_addresses.length ≤ PoolParameter.MAX_N_COINS) :
    ∃ buf, SwapVersion.pack (.SwapV2 v) (List.replicate SwapVersion.LATEST_LEN 0) =
        some (.ok (), buf) ∧ buf.length = SwapVersion.LATEST_LEN ∧
      SwapVersion.unpack buf = some (.ok (.SwapV2 v)) := by
  obtain ⟨init, nonce, amp, fee, afee, pf, pm, taa, pool, admin, se, ale⟩ := v
  simp only [SwapV2.wf] at hwf
  obtain ⟨hnonce, hamp, hfee, hafee, hpf, hmul, htaa, hpool, hadmin⟩ := hwf
  simp only at hinit hn hle
  simp only [PoolParameter.MAX_N_COINS] at hle
  subst hinit
  -- the multiplier and token regions of the packed buffer
  have hpmle : pm.length ≤ 4 := by omega
  have hMdef : ((List.replicate 264 (0 : Nat)).drop 38).take 32 = List.replicate 32 0 := by
    rw [List.drop_replicate, List.take_replicate]
    norm_num
  have hTdef : ((List.replicate 264 (0 : Nat)).drop 70).take 128 = List.replicate 128 0 := by
    rw [List.drop_replicate, List.take_replicate]
    norm_num
  have hMr : (List.replicate 32 (0 : Nat)).drop (8 * pm.length) =
      List.replicate (32 - 8 * pm.length) 0 := List.drop_replicate 0 _ _
  have hTr : (List.replicate 128 (0 : Nat)).drop (32 * taa.length) =
      List.replicate (128 - 32 * taa.length) 0 := List.drop_replicate 0 _ _
  set M : List Nat := pm.flatMap (bytesLE 8) ++ List.replicate (32 - 8 * pm.length) 0 with hMdef2
  set T : List Nat := taa.flatten ++ List.replicate (128 - 32 * taa.length) 0 with hTdef2
  have hMlen : M.length = 32 := by
    rw [hMdef2, List.length_append, length_flatMap_bytesLE8, List.length_replicate]
    omega
  have hTlen : T.length = 128 := by
    rw [hTdef2, List.length_append, length_flatten_uniform 32 taa htaa, List.length_replicate]
    omega
  set out : List Nat := swapSrc 1 nonce (bytesLE 8 amp) (bytesLE 8 fee) (bytesLE 8 afee)
    (bytesLE 4 taa.length) (bytesLE 8 pf) M T pool admin (boolToU8 se) (boolToU8 ale)
    with houtdef
  have houtlen : out.length = 264 := by
    rw [houtdef]
    exact swapSrc_length _ _ _ _ _ _ _ _ _ _ _ _ _ (by simp) (by simp) (by simp) (by simp)
      (by simp) hMlen hTlen hpool hadmin
  -- step 1: packing writes exactly the bytes of out after the version byte
  have hpack : SwapVersion.pack (.SwapV2 ⟨true, nonce, amp, fee, afee, pf, pm, taa, pool,
      admin, se, ale⟩) (List.replicate SwapVersion.LATEST_LEN 0) = some (.ok (), 2 :: out) := by
    have hrep265 : List.replicate SwapVersion.LATEST_LEN (0 : Nat) =
        0 :: List.replicate 264 0 := List.replicate_succ 0 264
    have hpis := pack_into_slice_eq ⟨true, nonce, amp, fee, afee, pf, pm, taa, pool,
        admin, se, ale⟩ (List.replicate 264 0) (by rw [List.length_replicate]) hpmle hle htaa
      hpool hadmin
    simp only [hMdef, hTdef, hMr, hTr] at hpis
    simp only [SwapVersion.pack, hrep265, List.set_cons_zero, List.drop_succ_cons,
      List.drop_zero, SwapV2.pack, List.length_replicate, SwapV2_LEN_eq]
    rw [if_neg (by omega)]
    simp only [hpis]
    rw [houtdef]
    simp only [List.take_succ_cons, List.take_zero, List.cons_append, List.nil_append]
    rfl
  -- step 2: unpacking out reads the record back
  have hcount : leNat (bytesLE 4 taa.length) = taa.length := by
    rw [leNat_bytesLE4, Nat.mod_eq_of_lt (by omega)]
  have hms : readSlots 8 M 0 (leNat (bytesLE 4 taa.length)) =
      some (pm.map (bytesLE 8)) := by
    rw [hcount, hMdef2, List.flatMap_def]
    have := readSlots_flat 8 (pm.map (bytesLE 8)) (List.replicate (32 - 8 * pm.length) 0)
      (by
        intro t ht
        rcases List.mem_map.mp ht with ⟨x, _, rfl⟩
        simp) taa.length 0 (by rw [List.length_map]; omega)
    rw [this, List.drop_zero]
  have hts : readSlots 32 T 0 (leNat (bytesLE 4 taa.length)) = some taa := by
    rw [hcount, hTdef2]
    have := readSlots_flat 32 taa (List.replicate (128 - 32 * taa.length) 0) htaa
      taa.length 0 (by omega)
    rw [this, List.drop_zero]
  have hunp : SwapVersion.unpack (2 :: out) = some (.ok (.SwapV2 ⟨true, nonce, amp, fee, afee,
      pf, pm, taa, pool, admin, se, ale⟩)) := by
    have hshape := unpack_from_slice_shape 1 nonce (boolToU8 se) (boolToU8 ale)
      (bytesLE 8 amp) (bytesLE 8 fee) (bytesLE 8 afee) (bytesLE 4 taa.length) (bytesLE 8 pf)
      M T pool admin (by simp) (by simp) (by simp) (by simp) (by simp) hMlen hTlen hpool hadmin
      (pm.map (bytesLE 8)) taa hms hts (Or.inr rfl) (boolToU8_or se) (boolToU8_or ale)
    rw [map_leNat_map_bytesLE8 pm hmul, leNat_bytesLE8, leNat_bytesLE8, leNat_bytesLE8,
      leNat_bytesLE8, Nat.mod_eq_of_lt hamp, Nat.mod_eq_of_lt hfee, Nat.mod_eq_of_lt hafee,
      Nat.mod_eq_of_lt hpf, boolToU8_beq_one, boolToU8_beq_one] at hshape
    simp only [SwapVersion.unpack]
    rw [if_pos trivial]
    simp only [SwapV2.unpack, SwapV2.unpack_unchecked, houtlen, SwapV2_LEN_eq]
    rw [if_neg (by omega)]
    rw [← houtdef] at hshape
    simp only [hshape]
    rfl
  exact ⟨2 :: out, hpack, by simp [houtlen, SwapVersion_LATEST_LEN_eq], hunp⟩


/-- Witness for C2_roundtrip at a concrete one-coin initialized record. -/
theorem C2_roundtrip_witness :
    (SwapV2.mk true 7 100 10 2 1 [1000000] [List.replicate 32 9] (List.replicate 32 1)
        (List.replicate 32 2) ⟨true, false⟩).wf ∧
      (SwapV2.mk true 7 100 10 2 1 [1000000] [List.replicate 32 9] (List.replicate 32 1)
        (List.replicate 32 2) ⟨true, false⟩).is_initialized = true ∧
      (SwapV2.mk true 7 100 10 2 1 [1000000] [List.replicate 32 9] (List.replicate 32 1)
        (List.replicate 32 2) ⟨true, false⟩).precision_multipliers.length =
        (SwapV2.mk true 7 100 10 2 1 [1000000] [List.replicate 32 9] (List.replicate 32 1)
          (List.replicate 32 2) ⟨true, false⟩).token_account_addresses.length ∧
      (SwapV2.mk true 7 100 10 2 1 [1000000] [List.replicate 32 9] (List.replicate 32 1)
        (List.replicate 32 2) ⟨true, false⟩).token_account_addresses.length ≤
        PoolParameter.MAX_N_COINS ∧
      ∃ buf,
        SwapVersion.pack
            (.SwapV2 (SwapV2.mk true 7 100 10 2 1 [1000000] [List.replicate 32 9]
              (List.replicate 32 1) (List.replicate 32 2) ⟨true, false⟩))
            (List.replicate SwapVersion.LATEST_LEN 0) = some (.ok (), buf) ∧
          buf.length = SwapVersion.LATEST_LEN ∧
          SwapVersion.unpack buf =
            some (.ok (.SwapV2 (SwapV2.mk true 7 100 10 2 1 [1000000] [List.replicate 32 9]
              (List.replicate 32 1) (List.replicate 32 2) ⟨true, false⟩))) :=
  ⟨by decide, rfl, rfl, by decide,
    C2_roundtrip _ (by decide) rfl rfl (by decide)⟩

set_option maxRecDepth 8192 in
/-- Counterexample to C2 as frozen: the default (uninitialized) record with
coin count 0 packs fine into a zero-filled 265-byte buffer, but unpacking the
result returns `Err(ProgramError::UninitializedAccount)` rather than the
record, because the `Pack::unpack` provided method rejects records whose
`is_initialized` field is false. -/
theorem C2_counterexample :
    SwapVersion.pack
        (.SwapV2 (SwapV2.mk false 0 0 0 0 0 [] [] (List.replicate 32 0) (List.replicate 32 0)
          ⟨false, false⟩)) (List.replicate 265 0) =
      some (.ok (), 2 :: List.replicate 264 0) ∧
    SwapVersion.unpack (2 :: List.replicate 264 0) =
      some (.error ProgramError.UninitializedAccount) := by
  constructor
  · rfl
  · rfl

theorem unpack_ok_initialized (input : List Nat) (v : SwapV2)
    (h : SwapVersion.unpack input = some (.ok (.SwapV2 v))) : v.is_initialized = true := by
  match input with
  | [] => simp [SwapVersion.unpack] at h
  | version :: rest =>
    simp only [SwapVersion.unpack] at h
    by_cases h2 : version = 2
    · rw [if_pos h2] at h
      rcases hu : SwapV2.unpack_unchecked rest with _ | (e | v2)
      · simp [SwapV2.unpack, hu] at h
      · simp [SwapV2.unpack, hu] at h
      · simp only [SwapV2.unpack, hu] at h
        by_cases hi : v2.is_initialized = true
        · rw [if_pos hi] at h
          simp only [Option.some.injEq, Except.ok.injEq, SwapVersion.SwapV2.injEq] at h
          rw [← h]
          exact hi
        · rw [if_neg hi] at h
          simp at h
    · rw [if_neg h2] at h
      simp at h

set_option maxRecDepth 8192 in
/-- Claim C3: `SwapVersion::unpack` returns `Ok` only for initialized records
(the `Pack::unpack` provided method applies the `IsInitialized` gate), and a
well-formed version-2 buffer whose `is_initialized` byte is 0 is rejected with
`ProgramError::UninitializedAccount`. -/
theorem C3_initialized_gate :
    (∀ (input : List Nat) (v : SwapV2),
        SwapVersion.unpack input = some (.ok (.SwapV2 v)) → v.is_initialized = true) ∧
      SwapVersion.unpack (2 :: List.replicate 264 0) =
        some (.error ProgramError.UninitializedAccount) :=
  ⟨unpack_ok_initialized, rfl⟩

set_option maxRecDepth 8192 in
/-- Witness for C3_initialized_gate at a concrete successfully-decoded buffer
(version 2, is_initialized byte 1, coin count 0, all other bytes 0). -/
theorem C3_initialized_gate_witness :
    SwapVersion.unpack (2 :: (List.replicate 264 0).set 0 1) =
        some (.ok (.SwapV2 (SwapV2.mk true 0 0 0 0 0 [] [] (List.replicate 32 0)
          (List.replicate 32 0) ⟨false, false⟩))) ∧
      (SwapV2.mk true 0 0 0 0 0 [] [] (List.replicate 32 0) (List.replicate 32 0)
        ⟨false, false⟩).is_initialized = true :=
  ⟨rfl, C3_initialized_gate.1 (2 :: (List.replicate 264 0).set 0 1) _ rfl⟩

/-- Claim C5: an instruction buffer whose first byte is outside 0..5 is
rejected with `ProgramError::InvalidAccountData`; a pool-record buffer whose
first byte is not 2 is rejected with `ProgramError::UninitializedAccount`,
which is a distinct kind. -/
theorem C5_unknown_tags :
    (∀ (t : Nat) (rest : List Nat), 6 ≤ t →
        SwapInstruction.unpack (t :: rest) = some (.error ProgramError.InvalidAccountData)) ∧
      (∀ (version : Nat) (rest : List Nat), version ≠ 2 →
        SwapVersion.unpack (version :: rest) =
          some (.error ProgramError.UninitializedAccount)) ∧
      ProgramError.UninitializedAccount ≠ ProgramError.InvalidAccountData := by
  refine ⟨?_, ?_, by decide⟩
  · intro t rest ht
    obtain ⟨n, rfl⟩ : ∃ n, t = n + 6 := ⟨t - 6, by omega⟩
    rfl
  · intro version rest hv
    simp only [SwapVersion.unpack]
    rw [if_neg hv]

/-- Witness for C5_unknown_tags at tag 9 and version 3. -/
theorem C5_unknown_tags_witness :
    SwapInstruction.unpack [9] = some (.error ProgramError.InvalidAccountData) ∧
      SwapVersion.unpack [3] = some (.error ProgramError.UninitializedAccount) :=
  ⟨C5_unknown_tags.1 9 [] (by omega), C5_unknown_tags.2.1 3 [] (by omega)⟩

/-- Claim C8 (corrected): wherever decoding terminates without a panic, the
`is_initialized` probe returns a plain bool: `some true` exactly when the full
decode succeeds (the decoded record then necessarily has the flag set), and
`some false` on every decode error.  A panic of the decoder (`none`) is the
one case where no bool is returned — see `C8_counterexample`. -/
theorem C8_is_initialized_probe (input : List Nat) :
    (SwapVersion.is_initialized input = none ↔ SwapVersion.unpack input = none) ∧
      (SwapVersion.is_initialized input = some true ↔
        ∃ v, SwapVersion.unpack input = some (.ok (.SwapV2 v))) ∧
      (∀ e, SwapVersion.unpack input = some (.error e) →
        SwapVersion.is_initialized input = some false) := by
  rcases hu : SwapVersion.unpack input with _ | (e | sv)
  · simp [SwapVersion.is_initialized, hu]
  · simp [SwapVersion.is_initialized, hu]
  · rcases sv with ⟨v⟩
    have hv := unpack_ok_initialized input v hu
    simp [SwapVersion.is_initialized, hu, hv]

set_option maxRecDepth 8192 in
/-- Witness for C8_is_initialized_probe: the probe collapses the
UninitializedAccount error on an all-zero version-2 buffer to false. -/
theorem C8_is_initialized_probe_witness :
    SwapVersion.is_initialized (2 :: List.replicate 264 0) = some false :=
  (C8_is_initialized_probe (2 :: List.replicate 264 0)).2.2
    ProgramError.UninitializedAccount rfl

set_option maxRecDepth 8192 in
/-- Counterexample to C8 as frozen (which promises a plain bool for every
byte buffer): a 265-byte buffer with version byte 2, is_initialized byte 1 and
a stored coin count of 5 makes `unpack_from_slice` panic inside the multiplier
loop (`array_ref!` out of range), so `is_initialized` panics (`none`) instead
of returning a bool. -/
theorem C8_counterexample :
    SwapVersion.is_initialized (2 :: ((List.replicate 264 0).set 0 1).set 26 5) = none ∧
      ∀ b : Bool,
        SwapVersion.is_initialized (2 :: ((List.replicate 264 0).set 0 1).set 26 5) ≠
          some b := by
  refine ⟨rfl, ?_⟩
  intro b h
  rw [show SwapVersion.is_initialized (2 :: ((List.replicate 264 0).set 0 1).set 26 5) =
    none from rfl] at h
  exact Option.noConfusion h

/-- Claim C10: `SwapVersion::pack` is not atomic on its error path.  On a
non-empty destination whose length is not `LATEST_LEN` it returns
`Err(ProgramError::InvalidAccountData)` from the inner `SwapV2::pack` length
check, but has already written the version byte 2 at position 0; and on an
empty destination it panics on the `dst[0]` index instead of returning an
error. -/
theorem C10_pack_error_path (v : SwapV2) (dst : List Nat) :
    (dst ≠ [] → dst.length ≠ SwapVersion.LATEST_LEN →
      SwapVersion.pack (.SwapV2 v) dst =
          some (.error ProgramError.InvalidAccountData, dst.set 0 2) ∧
        (dst.set 0 2).getD 0 0 = 2) ∧
      SwapVersion.pack (.SwapV2 v) [] = none := by
  refine ⟨?_, rfl⟩
  intro hne hlen
  match dst, hne with
  | b :: rest, _ =>
    have hrlen : rest.length ≠ 264 := by
      rw [List.length_cons, SwapVersion_LATEST_LEN_eq] at hlen
      omega
    simp only [SwapVersion.pack, List.set_cons_zero, List.drop_succ_cons, List.drop_zero,
      SwapV2.pack, SwapV2_LEN_eq]
    rw [if_pos hrlen]
    constructor <;> simp

/-- Witness for C10_pack_error_path at a 2-byte destination buffer. -/
theorem C10_pack_error_path_witness :
    SwapVersion.pack
        (.SwapV2 (SwapV2.mk false 0 0 0 0 0 [] [] (List.replicate 32 0) (List.replicate 32 0)
          ⟨false, false⟩)) [0, 0] =
        some (.error ProgramError.InvalidAccountData, [2, 0]) ∧
      ([0, 0].set 0 2).getD 0 0 = 2 :=
  (C10_pack_error_path
    (SwapV2.mk false 0 0 0 0 0 [] [] (List.replicate 32 0) (List.replicate 32 0)
      ⟨false, false⟩) [0, 0]).1 (by simp) (by decide)

/-! Claims C6 and C9. -/

theorem u8_to_bool_not01 (p : Nat) (h : ¬(p = 0 ∨ p = 1)) :
    u8_to_bool p = .error ProgramError.InvalidAccountData := by
  obtain ⟨n, rfl⟩ : ∃ n, p = n + 2 := ⟨p - 2, by omega⟩
  rfl

theorem u8_to_bool_01 (p : Nat) (h : p = 0 ∨ p = 1) : u8_to_bool p = .ok (p == 1) := by
  rcases h with rfl | rfl <;> rfl

theorem state_unpack_error (src : List Nat) (e : ProgramError) (hlen : src.length = 264)
    (h : SwapV2.unpack_from_slice src = some (.error e)) :
    SwapVersion.unpack (2 :: src) = some (.error e) := by
  simp only [SwapVersion.unpack]
  rw [if_pos trivial]
  simp only [SwapV2.unpack, SwapV2.unpack_unchecked, hlen, SwapV2_LEN_eq]
  rw [if_neg (by omega)]
  simp only [h]

theorem unpack_from_slice_bad_init (src : List Nat) (hlen : src.length = 264)
    (hbad : ¬(src.getD 0 0 = 0 ∨ src.getD 0 0 = 1)) :
    SwapV2.unpack_from_slice src = some (.error ProgramError.InvalidAccountData) := by
  simp only [SwapV2.unpack_from_slice, SwapV2_LEN_eq, hlen]
  rw [if_neg (lt_irrefl 264), if_neg hbad]

theorem unpack_from_slice_bad_admin (src : List Nat) (hlen : src.length = 264)
    (hinit : src.getD 0 0 = 0 ∨ src.getD 0 0 = 1)
    (hcount : leNat ((src.drop 26).take 4) ≤ 4)
    (hbad : ¬(src.getD 262 0 = 0 ∨ src.getD 262 0 = 1) ∨
      ((src.getD 262 0 = 0 ∨ src.getD 262 0 = 1) ∧
        ¬(src.getD 263 0 = 0 ∨ src.getD 263 0 = 1))) :
    SwapV2.unpack_from_slice src = some (.error ProgramError.InvalidAccountData) := by
  have hm : ((src.drop 38).take 32).length = 32 := by
    rw [List.length_take, List.length_drop, hlen]
    omega
  have ht : ((src.drop 70).take 128).length = 128 := by
    rw [List.length_take, List.length_drop, hlen]
    omega
  obtain ⟨ms, hms⟩ := readSlots_exists 8 ((src.drop 38).take 32)
    (leNat ((src.drop 26).take 4)) 0 (by rw [hm]; omega)
  obtain ⟨ts, hts⟩ := readSlots_exists 32 ((src.drop 70).take 128)
    (leNat ((src.drop 26).take 4)) 0 (by rw [ht]; omega)
  simp only [SwapV2.unpack_from_slice, SwapV2_LEN_eq, hlen]
  rw [if_neg (lt_irrefl 264), if_pos hinit]
  simp only [hms, hts]
  rcases hbad with hbad | ⟨h262, hbad⟩
  · rw [if_neg hbad]
  · rw [if_pos h262, if_neg hbad]

/-- Claim C6: every byte in a boolean position is validated against 0 and 1.
An Initialize payload whose swap_enabled or add_liquidity_enabled byte is
neither 0 nor 1 decodes to `Err(ProgramError::InvalidAccountData)`; a
version-2 pool record whose is_initialized byte or either admin flag byte is
neither 0 nor 1 decodes to `Err(ProgramError::InvalidAccountData)`; and the
designated converter maps byte 0 to false and byte 1 to true. -/
theorem C6_boolean_validation :
    (∀ (nonce n_coins p q : Nat) (B1 B2 B3 : List Nat),
        B1.length = 8 → B2.length = 8 → B3.length = 8 → ¬(p = 0 ∨ p = 1) →
        SwapInstruction.unpack (0 :: nonce :: n_coins :: (B1 ++ (B2 ++ (B3 ++ [p, q])))) =
          some (.error ProgramError.InvalidAccountData)) ∧
      (∀ (nonce n_coins p q : Nat) (B1 B2 B3 : List Nat),
        B1.length = 8 → B2.length = 8 → B3.length = 8 → (p = 0 ∨ p = 1) →
        ¬(q = 0 ∨ q = 1) →
        SwapInstruction.unpack (0 :: nonce :: n_coins :: (B1 ++ (B2 ++ (B3 ++ [p, q])))) =
          some (.error ProgramError.InvalidAccountData)) ∧
      (u8_to_bool 0 = .ok false ∧ u8_to_bool 1 = .ok true) ∧
      (∀ src : List Nat, src.length = 264 → ¬(src.getD 0 0 = 0 ∨ src.getD 0 0 = 1) →
        SwapVersion.unpack (2 :: src) = some (.error ProgramError.InvalidAccountData)) ∧
      (∀ src : List Nat, src.length = 264 → (src.getD 0 0 = 0 ∨ src.getD 0 0 = 1) →
        leNat ((src.drop 26).take 4) ≤ 4 → ¬(src.getD 262 0 = 0 ∨ src.getD 262 0 = 1) →
        SwapVersion.unpack (2 :: src) = some (.error ProgramError.InvalidAccountData)) ∧
      (∀ src : List Nat, src.length = 264 → (src.getD 0 0 = 0 ∨ src.getD 0 0 = 1) →
        leNat ((src.drop 26).take 4) ≤ 4 → (src.getD 262 0 = 0 ∨ src.getD 262 0 = 1) →
        ¬(src.getD 263 0 = 0 ∨ src.getD 263 0 = 1) →
        SwapVersion.unpack (2 :: src) = some (.error ProgramError.InvalidAccountData)) := by
  refine ⟨?_, ?_, ⟨rfl, rfl⟩, ?_, ?_, ?_⟩
  · intro nonce n_coins p q B1 B2 B3 hB1 hB2 hB3 hp
    simp only [SwapInstruction.unpack, unpack_u8_cons, unpack_u64_append _ _ hB1,
      unpack_u64_append _ _ hB2, unpack_u64_append _ _ hB3, u8_to_bool_not01 p hp]
  · intro nonce n_coins p q B1 B2 B3 hB1 hB2 hB3 hp hq
    simp only [SwapInstruction.unpack, unpack_u8_cons, unpack_u64_append _ _ hB1,
      unpack_u64_append _ _ hB2, unpack_u64_append _ _ hB3, u8_to_bool_01 p hp,
      u8_to_bool_not01 q hq]
  · intro src hlen hbad
    exact state_unpack_error src _ hlen (unpack_from_slice_bad_init src hlen hbad)
  · intro src hlen hinit hcount hbad
    exact state_unpack_error src _ hlen
      (unpack_from_slice_bad_admin src hlen hinit hcount (Or.inl hbad))
  · intro src hlen hinit hcount h262 hbad
    exact state_unpack_error src _ hlen
      (unpack_from_slice_bad_admin src hlen hinit hcount (Or.inr ⟨h262, hbad⟩))

/-- Witness for C6_boolean_validation: an Initialize payload with swap_enabled
byte 7 is rejected. -/
theorem C6_boolean_validation_witness :
    SwapInstruction.unpack (0 :: 0 :: 2 :: (bytesLE 8 100 ++ (bytesLE 8 10 ++
        (bytesLE 8 2 ++ [7, 0])))) = some (.error ProgramError.InvalidAccountData) :=
  C6_boolean_validation.1 0 2 7 0 (bytesLE 8 100) (bytesLE 8 10) (bytesLE 8 2)
    (by simp) (by simp) (by simp) (by omega)

/-- Claim C9: every instruction builder fails with
`ProgramError::IncorrectProgramId` exactly when the supplied program id
differs from the declared id, and otherwise returns an `Instruction` whose
data is the packed corresponding command and whose account list follows the
fixed per-command template. -/
theorem C9_builders :
    (∀ (program_id swap_account pool_authority : Pubkey)
        (token_accounts mints : List Pubkey) (pool_mint admin_mint : Pubkey)
        (nonce n_coins amplification_coefficient fee_numerator admin_fee_numerator : Nat)
        (admin_settings : AdminSettings),
        ( initialize_ix program_id swap_account pool_authority token_accounts mints pool_mint
            admin_mint nonce n_coins amplification_coefficient fee_numerator
            admin_fee_numerator admin_settings = .error ProgramError.IncorrectProgramId ↔
          program_id ≠ ID) ∧
        (program_id = ID →
          initialize_ix program_id swap_account pool_authority token_accounts mints pool_mint
              admin_mint nonce n_coins amplification_coefficient fee_numerator
              admin_fee_numerator admin_settings =
            .ok ⟨program_id,
              AccountMeta.new swap_account false ::
                AccountMeta.new_readonly pool_authority false ::
                (token_accounts.map (fun k => AccountMeta.new_readonly k false) ++
                  mints.map (fun k => AccountMeta.new_readonly k false) ++
                  [AccountMeta.new_readonly pool_mint false,
                    AccountMeta.new_readonly admin_mint false]),
              SwapInstruction.pack (.Initialize nonce amplification_coefficient fee_numerator
                admin_fee_numerator n_coins admin_settings)⟩)) ∧
      (∀ (program_id swap_account token_program pool_authority user_authority : Pubkey)
        (swap_tokens : List Pubkey) (pool_mint : Pubkey) (source_tokens : List Pubkey)
        (lp_token : Pubkey) (deposit_amounts : List Nat) (min_mint_amount : Nat),
        (add_liquidity program_id swap_account token_program pool_authority user_authority
            swap_tokens pool_mint source_tokens lp_token deposit_amounts min_mint_amount =
          .error ProgramError.IncorrectProgramId ↔ program_id ≠ ID) ∧
        (program_id = ID →
          add_liquidity program_id swap_account token_program pool_authority user_authority
              swap_tokens pool_mint source_tokens lp_token deposit_amounts min_mint_amount =
            .ok ⟨program_id,
              AccountMeta.new_readonly swap_account false ::
                AccountMeta.new_readonly token_program false ::
                AccountMeta.new_readonly pool_authority false ::
                AccountMeta.new_readonly user_authority true ::
                (swap_tokens.map (fun k => AccountMeta.new k false) ++
                  AccountMeta.new pool_mint false ::
                    (source_tokens.map (fun k => AccountMeta.new k false) ++
                      [AccountMeta.new lp_token false])),
              SwapInstruction.pack (.AddLiquidity deposit_amounts min_mint_amount)⟩)) ∧
      (∀ (program_id swap_account token_program pool_authority user_authority : Pubkey)
        (swap_tokens : List Pubkey) (pool_mint : Pubkey) (dest_tokens : List Pubkey)
        (lp_token : Pubkey) (unmint_amount : Nat) (minimum_amounts : List Nat),
        (remove_liquidity program_id swap_account token_program pool_authority user_authority
            swap_tokens pool_mint dest_tokens lp_token unmint_amount minimum_amounts =
          .error ProgramError.IncorrectProgramId ↔ program_id ≠ ID) ∧
        (program_id = ID →
          remove_liquidity program_id swap_account token_program pool_authority user_authority
              swap_tokens pool_mint dest_tokens lp_token unmint_amount minimum_amounts =
            .ok ⟨program_id,
              AccountMeta.new_readonly swap_account false ::
                AccountMeta.new_readonly token_program false ::
                AccountMeta.new_readonly pool_authority false ::
                AccountMeta.new_readonly user_authority true ::
                (swap_tokens.map (fun k => AccountMeta.new k false) ++
                  AccountMeta.new pool_mint false ::
                    (dest_tokens.map (fun k => AccountMeta.new k false) ++
                      [AccountMeta.new lp_token false])),
              SwapInstruction.pack (.RemoveLiquidity unmint_amount minimum_amounts)⟩)) ∧
      (∀ (program_id swap_account token_program pool_authority user_authority : Pubkey)
        (swap_tokens : List Pubkey) (pool_mint dest_token lp_token : Pubkey)
        (unmint_amount minimum_out_amount : Nat),
        (remove_liquidity_one_token program_id swap_account token_program pool_authority
            user_authority swap_tokens pool_mint dest_token lp_token unmint_amount
            minimum_out_amount = .error ProgramError.IncorrectProgramId ↔
          program_id ≠ ID) ∧
        (program_id = ID →
          remove_liquidity_one_token program_id swap_account token_program pool_authority
              user_authority swap_tokens pool_mint dest_token lp_token unmint_amount
              minimum_out_amount =
            .ok ⟨program_id,
              AccountMeta.new_readonly swap_account false ::
                AccountMeta.new_readonly token_program false ::
                AccountMeta.new_readonly pool_authority false ::
                AccountMeta.new_readonly user_authority true ::
                (swap_tokens.map (fun k => AccountMeta.new k false) ++
                  [AccountMeta.new pool_mint false, AccountMeta.new dest_token false,
                    AccountMeta.new lp_token false]),
              SwapInstruction.pack
                (.RemoveLiquidityOneToken unmint_amount minimum_out_amount)⟩)) ∧
      (∀ (program_id swap_account token_program pool_authority user_authority : Pubkey)
        (swap_tokens : List Pubkey) (source_token dest_token : Pubkey)
        (in_amount minimum_out_amount : Nat),
        (exchange program_id swap_account token_program pool_authority user_authority
            swap_tokens source_token dest_token in_amount minimum_out_amount =
          .error ProgramError.IncorrectProgramId ↔ program_id ≠ ID) ∧
        (program_id = ID →
          exchange program_id swap_account token_program pool_authority user_authority
              swap_tokens source_token dest_token in_amount minimum_out_amount =
            .ok ⟨program_id,
              AccountMeta.new_readonly swap_account false ::
                AccountMeta.new_readonly token_program false ::
                AccountMeta.new_readonly pool_authority false ::
                AccountMeta.new_readonly user_authority true ::
                (swap_tokens.map (fun k => AccountMeta.new k false) ++
                  [AccountMeta.new source_token false, AccountMeta.new dest_token false]),
              SwapInstruction.pack (.Exchange in_amount minimum_out_amount)⟩)) := by
  refine ⟨?_, ?_, ?_, ?_, ?_⟩ <;>
    · intro program_id
      intros
      by_cases hpid : program_id = ID <;>
        simp [ initialize_ix, add_liquidity, remove_liquidity, remove_liquidity_one_token,
          exchange, check_program_account, hpid]

/-- Witness for C9_builders: the exchange builder at the declared id and at a
wrong id. -/
theorem C9_builders_witness :
    exchange ID (List.replicate 32 0) (List.replicate 32 0) (List.replicate 32 0)
        (List.replicate 32 0) [] (List.replicate 32 0) (List.replicate 32 0) 1 2 =
      .ok ⟨ID,
        AccountMeta.new_readonly (List.replicate 32 0) false ::
          AccountMeta.new_readonly (List.replicate 32 0) false ::
          AccountMeta.new_readonly (List.replicate 32 0) false ::
          AccountMeta.new_readonly (List.replicate 32 0) true ::
          (([] : List Pubkey).map (fun k => AccountMeta.new k false) ++
            [AccountMeta.new (List.replicate 32 0) false,
              AccountMeta.new (List.replicate 32 0) false]),
        SwapInstruction.pack (.Exchange 1 2)⟩ ∧
      (exchange (List.replicate 32 0) (List.replicate 32 0) (List.replicate 32 0)
          (List.replicate 32 0) (List.replicate 32 0) [] (List.replicate 32 0)
          (List.replicate 32 0) 1 2 = .error ProgramError.IncorrectProgramId ↔
        List.replicate 32 (0 : Nat) ≠ ID) :=
  ⟨(C9_builders.2.2.2.2 ID (List.replicate 32 0) (List.replicate 32 0) (List.replicate 32 0)
      (List.replicate 32 0) [] (List.replicate 32 0) (List.replicate 32 0) 1 2).2 rfl,
    (C9_builders.2.2.2.2 (List.replicate 32 0) (List.replicate 32 0) (List.replicate 32 0)
      (List.replicate 32 0) (List.replicate 32 0) [] (List.replicate 32 0)
      (List.replicate 32 0) 1 2).1⟩

/-! Claim C7: the frame property of the record encoder. -/

theorem swapSrc_split (b0 n1 : Nat) (B1 B2 B3 L P M T PM AM : List Nat) (s l : Nat) :
    swapSrc b0 n1 B1 B2 B3 L P M T PM AM s l =
      (b0 :: n1 :: (B1 ++ (B2 ++ (B3 ++ (L ++ P))))) ++
        (M ++ (T ++ (PM ++ (AM ++ [s, l])))) := by
  simp [swapSrc, List.cons_append, List.append_assoc]

theorem swapSrc_take_38 (b0 n1 : Nat) (B1 B2 B3 L P M T PM AM : List Nat) (s l : Nat)
    (hB1 : B1.length = 8) (hB2 : B2.length = 8) (hB3 : B3.length = 8)
    (hL : L.length = 4) (hP : P.length = 8) :
    (swapSrc b0 n1 B1 B2 B3 L P M T PM AM s l).take 38 =
      b0 :: n1 :: (B1 ++ (B2 ++ (B3 ++ (L ++ P)))) := by
  have hplen : (b0 :: n1 :: (B1 ++ (B2 ++ (B3 ++ (L ++ P))))).length = 38 := by
    simp [hB1, hB2, hB3, hL, hP]
  rw [swapSrc_split, ← hplen, List.take_left]

theorem swapSrc_drop_38 (b0 n1 : Nat) (B1 B2 B3 L P M T PM AM : List Nat) (s l : Nat)
    (hB1 : B1.length = 8) (hB2 : B2.length = 8) (hB3 : B3.length = 8)
    (hL : L.length = 4) (hP : P.length = 8) :
    (swapSrc b0 n1 B1 B2 B3 L P M T PM AM s l).drop 38 =
      M ++ (T ++ (PM ++ (AM ++ [s, l]))) := by
  have hplen : (b0 :: n1 :: (B1 ++ (B2 ++ (B3 ++ (L ++ P))))).length = 38 := by
    simp [hB1, hB2, hB3, hL, hP]
  rw [swapSrc_split, ← hplen, List.drop_left]

theorem swapSrc_drop_70 (b0 n1 : Nat) (B1 B2 B3 L P M T PM AM : List Nat) (s l : Nat)
    (hB1 : B1.length = 8) (hB2 : B2.length = 8) (hB3 : B3.length = 8)
    (hL : L.length = 4) (hP : P.length = 8) (hM : M.length = 32) :
    (swapSrc b0 n1 B1 B2 B3 L P M T PM AM s l).drop 70 =
      T ++ (PM ++ (AM ++ [s, l])) := by
  rw [show (70 : Nat) = 38 + 32 by norm_num, ← List.drop_drop,
    swapSrc_drop_38 b0 n1 B1 B2 B3 L P M T PM AM s l hB1 hB2 hB3 hL hP,
    append_drop_len _ _ hM]

theorem swapSrc_drop_198 (b0 n1 : Nat) (B1 B2 B3 L P M T PM AM : List Nat) (s l : Nat)
    (hB1 : B1.length = 8) (hB2 : B2.length = 8) (hB3 : B3.length = 8)
    (hL : L.length = 4) (hP : P.length = 8) (hM : M.length = 32) (hT : T.length = 128) :
    (swapSrc b0 n1 B1 B2 B3 L P M T PM AM s l).drop 198 = PM ++ (AM ++ [s, l]) := by
  rw [show (198 : Nat) = 70 + 128 by norm_num, ← List.drop_drop,
    swapSrc_drop_70 b0 n1 B1 B2 B3 L P M T PM AM s l hB1 hB2 hB3 hL hP hM,
    append_drop_len _ _ hT]

theorem getElem?_eq_drop {α : Type} (l : List α) (n i : Nat) (h : n ≤ i) :
    l[i]? = (l.drop n)[i - n]? := by
  rw [List.getElem?_drop]
  congr 1
  omega

theorem packed_getElem_facts (init : Bool) (nonce amp fee afee pf : Nat) (pm : List Nat)
    (taa : List Pubkey) (pool admin : Pubkey) (se ale : Bool) (dst : List Nat)
    (h264 : dst.length = 264) (hpm4 : pm.length ≤ 4) (hta4 : taa.length ≤ 4)
    (hpk : ∀ a ∈ taa, a.length = 32) (hpool : pool.length = 32)
    (hadmin : admin.length = 32) (out : List Nat)
    (hout : SwapV2.pack_into_slice ⟨init, nonce, amp, fee, afee, pf, pm, taa, pool, admin,
      se, ale⟩ dst = some out) :
    out.length = 264 ∧
      (∀ i, i < 38 → out[i]? =
        (boolToU8 init :: nonce :: (bytesLE 8 amp ++ (bytesLE 8 fee ++ (bytesLE 8 afee ++
          (bytesLE 4 taa.length ++ bytesLE 8 pf)))))[i]?) ∧
      (∀ i, 38 ≤ i → i < 38 + 8 * pm.length →
        out[i]? = (pm.flatMap (bytesLE 8))[i - 38]?) ∧
      (∀ i, 38 + 8 * pm.length ≤ i → i < 70 → out[i]? = dst[i]?) ∧
      (∀ i, 70 ≤ i → i < 70 + 32 * taa.length → out[i]? = taa.flatten[i - 70]?) ∧
      (∀ i, 70 + 32 * taa.length ≤ i → i < 198 → out[i]? = dst[i]?) ∧
      (∀ i, 198 ≤ i → out[i]? =
        (pool ++ (admin ++ [boolToU8 se, boolToU8 ale]))[i - 198]?) := by
  have hpis := pack_into_slice_eq ⟨init, nonce, amp, fee, afee, pf, pm, taa, pool, admin,
    se, ale⟩ dst h264 hpm4 hta4 hpk hpool hadmin
  rw [hout] at hpis
  obtain rfl := (Option.some_inj.mp hpis)
  dsimp only at *
  have hflatlen : (pm.flatMap (bytesLE 8)).length = 8 * pm.length :=
    length_flatMap_bytesLE8 pm
  have htflatlen : taa.flatten.length = 32 * taa.length := length_flatten_uniform 32 taa hpk
  have hreslen : (((dst.drop 38).take 32).drop (8 * pm.length)).length = 32 - 8 * pm.length := by
    rw [List.length_drop, List.length_take, List.length_drop, h264]
    omega
  have hres2len : (((dst.drop 70).take 128).drop (32 * taa.length)).length =
      128 - 32 * taa.length := by
    rw [List.length_drop, List.length_take, List.length_drop, h264]
    omega
  have hMlen : (pm.flatMap (bytesLE 8) ++
      ((dst.drop 38).take 32).drop (8 * pm.length)).length = 32 := by
    rw [List.length_append, hflatlen, hreslen]
    omega
  have hTlen : (taa.flatten ++ ((dst.drop 70).take 128).drop (32 * taa.length)).length =
      128 := by
    rw [List.length_append, htflatlen, hres2len]
    omega
  refine ⟨?_, ?_, ?_, ?_, ?_, ?_, ?_⟩
  · exact swapSrc_length _ _ _ _ _ _ _ _ _ _ _ _ _ (by simp) (by simp) (by simp) (by simp)
      (by simp) hMlen hTlen hpool hadmin
  · intro i hi
    have ht38 := swapSrc_take_38 (boolToU8 init) nonce (bytesLE 8 amp) (bytesLE 8 fee)
      (bytesLE 8 afee) (bytesLE 4 taa.length) (bytesLE 8 pf)
      (pm.flatMap (bytesLE 8) ++ ((dst.drop 38).take 32).drop (8 * pm.length))
      (taa.flatten ++ ((dst.drop 70).take 128).drop (32 * taa.length)) pool admin
      (boolToU8 se) (boolToU8 ale) (by simp) (by simp) (by simp) (by simp) (by simp)
    calc (swapSrc (boolToU8 init) nonce (bytesLE 8 amp) (bytesLE 8 fee) (bytesLE 8 afee)
        (bytesLE 4 taa.length) (bytesLE 8 pf)
        (pm.flatMap (bytesLE 8) ++ ((dst.drop 38).take 32).drop (8 * pm.length))
        (taa.flatten ++ ((dst.drop 70).take 128).drop (32 * taa.length)) pool admin
        (boolToU8 se) (boolToU8 ale))[i]? =
        ((swapSrc (boolToU8 init) nonce (bytesLE 8 amp) (bytesLE 8 fee) (bytesLE 8 afee)
        (bytesLE 4 taa.length) (bytesLE 8 pf)
        (pm.flatMap (bytesLE 8) ++ ((dst.drop 38).take 32).drop (8 * pm.length))
        (taa.flatten ++ ((dst.drop 70).take 128).drop (32 * taa.length)) pool admin
        (boolToU8 se) (boolToU8 ale)).take 38)[i]? := by
          rw [List.getElem?_take, if_pos hi]
      _ = (boolToU8 init :: nonce :: (bytesLE 8 amp ++ (bytesLE 8 fee ++ (bytesLE 8 afee ++
          (bytesLE 4 taa.length ++ bytesLE 8 pf)))))[i]? := by rw [ht38]
  · intro i hi1 hi2
    have hd38 := swapSrc_drop_38 (boolToU8 init) nonce (bytesLE 8 amp) (bytesLE 8 fee)
      (bytesLE 8 afee) (bytesLE 4 taa.length) (bytesLE 8 pf)
      (pm.flatMap (bytesLE 8) ++ ((dst.drop 38).take 32).drop (8 * pm.length))
      (taa.flatten ++ ((dst.drop 70).take 128).drop (32 * taa.length)) pool admin
      (boolToU8 se) (boolToU8 ale) (by simp) (by simp) (by simp) (by simp) (by simp)
    rw [getElem?_eq_drop _ 38 i hi1, hd38, List.append_assoc, List.getElem?_append,
      if_pos (by rw [hflatlen]; omega)]
  · intro i hi1 hi2
    have hd38 := swapSrc_drop_38 (boolToU8 init) nonce (bytesLE 8 amp) (bytesLE 8 fee)
      (bytesLE 8 afee) (bytesLE 4 taa.length) (bytesLE 8 pf)
      (pm.flatMap (bytesLE 8) ++ ((dst.drop 38).take 32).drop (8 * pm.length))
      (taa.flatten ++ ((dst.drop 70).take 128).drop (32 * taa.length)) pool admin
      (boolToU8 se) (boolToU8 ale) (by simp) (by simp) (by simp) (by simp) (by simp)
    rw [getElem?_eq_drop _ 38 i (by omega), hd38, List.append_assoc, List.getElem?_append,
      if_neg (by rw [hflatlen]; omega), List.getElem?_append,
      if_pos (by rw [hflatlen, hreslen]; omega), hflatlen, List.getElem?_drop,
      List.getElem?_take, if_pos (by omega), List.getElem?_drop]
    congr 1
    omega
  · intro i hi1 hi2
    have hd70 := swapSrc_drop_70 (boolToU8 init) nonce (bytesLE 8 amp) (bytesLE 8 fee)
      (bytesLE 8 afee) (bytesLE 4 taa.length) (bytesLE 8 pf)
      (pm.flatMap (bytesLE 8) ++ ((dst.drop 38).take 32).drop (8 * pm.length))
      (taa.flatten ++ ((dst.drop 70).take 128).drop (32 * taa.length)) pool admin
      (boolToU8 se) (boolToU8 ale) (by simp) (by simp) (by simp) (by simp) (by simp) hMlen
    rw [getElem?_eq_drop _ 70 i hi1, hd70, List.append_assoc, List.getElem?_append,
      if_pos (by rw [htflatlen]; omega)]
  · intro i hi1 hi2
    have hd70 := swapSrc_drop_70 (boolToU8 init) nonce (bytesLE 8 amp) (bytesLE 8 fee)
      (bytesLE 8 afee) (bytesLE 4 taa.length) (bytesLE 8 pf)
      (pm.flatMap (bytesLE 8) ++ ((dst.drop 38).take 32).drop (8 * pm.length))
      (taa.flatten ++ ((dst.drop 70).take 128).drop (32 * taa.length)) pool admin
      (boolToU8 se) (boolToU8 ale) (by simp) (by simp) (by simp) (by simp) (by simp) hMlen
    rw [getElem?_eq_drop _ 70 i (by omega), hd70, List.append_assoc, List.getElem?_append,
      if_neg (by rw [htflatlen]; omega), List.getElem?_append,
      if_pos (by rw [htflatlen, hres2len]; omega), htflatlen, List.getElem?_drop,
      List.getElem?_take, if_pos (by omega), List.getElem?_drop]
    congr 1
    omega
  · intro i hi1
    have hd198 := swapSrc_drop_198 (boolToU8 init) nonce (bytesLE 8 amp) (bytesLE 8 fee)
      (bytesLE 8 afee) (bytesLE 4 taa.length) (bytesLE 8 pf)
      (pm.flatMap (bytesLE 8) ++ ((dst.drop 38).take 32).drop (8 * pm.length))
      (taa.flatten ++ ((dst.drop 70).take 128).drop (32 * taa.length)) pool admin
      (boolToU8 se) (boolToU8 ale) (by simp) (by simp) (by simp) (by simp) (by simp)
      hMlen hTlen
    rw [getElem?_eq_drop _ 198 i hi1, hd198]

/-- Claim C7: `SwapV2::pack_into_slice` writes only the first coin-count slots
of the multiplier and token-address regions — every byte of the remaining
slots of those two regions keeps exactly the value the destination held before
the call — while every byte of every other field of the 264-byte record is
fully overwritten (its value is independent of the destination buffer). -/
theorem C7_pack_frame (v : SwapV2) (dst : List Nat) (h264 : dst.length = 264)
    (hn : v.precision_multipliers.length = v.token_account_addresses.length)
    (hle : v.token_account_addresses.length ≤ PoolParameter.MAX_N_COINS)
    (hpk : ∀ a ∈ v.token_account_addresses, a.length = 32)
    (hpool : v.pool_mint_address.length = 32)
    (hadmin : v.admin_token_mint_address.length = 32) :
    ∃ out, SwapV2.pack_into_slice v dst = some out ∧ out.length = 264 ∧
      (∀ i, 38 + 8 * v.token_account_addresses.length ≤ i → i < 70 →
        out[i]? = dst[i]?) ∧
      (∀ i, 70 + 32 * v.token_account_addresses.length ≤ i → i < 198 →
        out[i]? = dst[i]?) ∧
      (∀ dst2 : List Nat, dst2.length = 264 →
        ∀ out2, SwapV2.pack_into_slice v dst2 = some out2 →
          ∀ i, i < 264 →
            (i < 38 + 8 * v.token_account_addresses.length ∨
              (70 ≤ i ∧ i < 70 + 32 * v.token_account_addresses.length) ∨ 198 ≤ i) →
            out[i]? = out2[i]?) := by
  obtain ⟨init, nonce, amp, fee, afee, pf, pm, taa, pool, admin, se, ale⟩ := v
  dsimp only at hn hle hpk hpool hadmin ⊢
  simp only [PoolParameter.MAX_N_COINS] at hle
  have hpm4 : pm.length ≤ 4 := by omega
  have hpis := pack_into_slice_eq ⟨init, nonce, amp, fee, afee, pf, pm, taa, pool, admin,
    se, ale⟩ dst h264 hpm4 hle hpk hpool hadmin
  obtain ⟨hlen, hA, hB, hC, hD, hE, hF⟩ := packed_getElem_facts init nonce amp fee afee pf
    pm taa pool admin se ale dst h264 hpm4 hle hpk hpool hadmin _ hpis
  refine ⟨_, hpis, hlen, ?_, ?_, ?_⟩
  · intro i h1 h2
    exact hC i (by omega) h2
  · intro i h1 h2
    exact hE i (by omega) h2
  · intro dst2 hdst2 out2 hout2 i hi hcase
    obtain ⟨hlen2, hA2, hB2, hC2, hD2, hE2, hF2⟩ := packed_getElem_facts init nonce amp fee
      afee pf pm taa pool admin se ale dst2 hdst2 hpm4 hle hpk hpool hadmin out2 hout2
    rcases hcase with hcase | ⟨h70, hcase⟩ | hcase
    · by_cases h38 : i < 38
      · rw [hA i h38, hA2 i h38]
      · rw [hB i (by omega) (by omega), hB2 i (by omega) (by omega)]
    · rw [hD i h70 (by omega), hD2 i h70 (by omega)]
    · rw [hF i hcase, hF2 i hcase]

set_option maxRecDepth 8192 in
/-- Witness for C7_pack_frame at a concrete one-coin record and a destination
buffer filled with the byte 3. -/
theorem C7_pack_frame_witness :
    (List.replicate 264 (3 : Nat)).length = 264 ∧
      (SwapV2.mk true 7 100 10 2 1 [5] [List.replicate 32 9] (List.replicate 32 1)
          (List.replicate 32 2) ⟨true, false⟩).precision_multipliers.length =
        (SwapV2.mk true 7 100 10 2 1 [5] [List.replicate 32 9] (List.replicate 32 1)
          (List.replicate 32 2) ⟨true, false⟩).token_account_addresses.length ∧
      ∃ out,
        SwapV2.pack_into_slice
            (SwapV2.mk true 7 100 10 2 1 [5] [List.replicate 32 9] (List.replicate 32 1)
              (List.replicate 32 2) ⟨true, false⟩) (List.replicate 264 3) = some out ∧
          out.length = 264 ∧
          (∀ i, 38 + 8 * (SwapV2.mk true 7 100 10 2 1 [5] [List.replicate 32 9]
              (List.replicate 32 1) (List.replicate 32 2)
              ⟨true, false⟩).token_account_addresses.length ≤ i → i < 70 →
            out[i]? = (List.replicate 264 (3 : Nat))[i]?) ∧
          (∀ i, 70 + 32 * (SwapV2.mk true 7 100 10 2 1 [5] [List.replicate 32 9]
              (List.replicate 32 1) (List.replicate 32 2)
              ⟨true, false⟩).token_account_addresses.length ≤ i → i < 198 →
            out[i]? = (List.replicate 264 (3 : Nat))[i]?) ∧
          (∀ dst2 : List Nat, dst2.length = 264 →
            ∀ out2, SwapV2.pack_into_slice
                (SwapV2.mk true 7 100 10 2 1 [5] [List.replicate 32 9] (List.replicate 32 1)
                  (List.replicate 32 2) ⟨true, false⟩) dst2 = some out2 →
              ∀ i, i < 264 →
                (i < 38 + 8 * (SwapV2.mk true 7 100 10 2 1 [5] [List.replicate 32 9]
                    (List.replicate 32 1) (List.replicate 32 2)
                    ⟨true, false⟩).token_account_addresses.length ∨
                  (70 ≤ i ∧ i < 70 + 32 * (SwapV2.mk true 7 100 10 2 1 [5]
                    [List.replicate 32 9] (List.replicate 32 1) (List.replicate 32 2)
                    ⟨true, false⟩).token_account_addresses.length) ∨ 198 ≤ i) →
                out[i]? = out2[i]?) :=
  ⟨by decide, rfl,
    C7_pack_frame
      (SwapV2.mk true 7 100 10 2 1 [5] [List.replicate 32 9] (List.replicate 32 1)
        (List.replicate 32 2) ⟨true, false⟩)
      (List.replicate 264 3) (by decide) rfl (by decide) (by decide) (by decide) (by decide)⟩
